import Mathlib

/-!
Verification development for the csvlang interpreter
(https://github.com/Rishabh570/csvlang).

The Go sources are shallowly embedded: each Lean definition mirrors one Go
function or type of the repository.  Conventions used throughout:

* Go's `object.Object` interface values may be `nil`; an evaluation result is
  therefore an `Option Obj`, with `none` standing for Go's `nil` interface.
* A Go runtime panic (nil dereference, failed type assertion `x.(*T)`,
  division by zero, out-of-range slice index) aborts the whole evaluation; a
  computation that can panic returns one more `Option` layer, whose `none`
  means "the Go program panics here".
* Go `int64` arithmetic wraps; `int64wrap` applies two's-complement
  wrap-around where the Go code can overflow.
* Go `map[string]string` rows are modelled as association lists with
  last-write-wins update and `""` (the Go zero value) for missing keys.
* Go map-iteration order is unspecified; where the source iterates over a
  map (`evalForLoopStatement`'s copy-back loop) the model iterates in
  insertion order.  No theorem below depends on that order.
* Heap aliasing (Go slices and environments are mutated in place) is made
  explicit: functions that mutate a value return its post-state, and the
  environment is threaded through evaluation.  Closures (`object.Function`,
  `ast.CallExpression`) capture environments by reference and are outside
  this value-level model; the embedded AST covers the remaining node kinds.
-/

namespace CsvLang

/-- `object.ObjectType` is a Go string type. -/
abbrev ObjectType := String

def NULL_OBJ : ObjectType := "NULL"
def ERROR_OBJ : ObjectType := "ERROR"
def CSV_OBJ : ObjectType := "CSV"
def CSV_ROW : ObjectType := "CSV_ROW"
def CSV_VAL : ObjectType := "CSV_VAL"
def STRING_OBJ : ObjectType := "STRING"
def INTEGER_OBJ : ObjectType := "INTEGER"
def BOOLEAN_OBJ : ObjectType := "BOOLEAN"
def RETURN_VALUE_OBJ : ObjectType := "RETURN_VALUE"
def FUNCTION_OBJ : ObjectType := "FUNCTION"
def ARRAY : ObjectType := "ARRAY"
def BUILTIN_OBJ : ObjectType := "BUILTIN"

/-- `object.ColumnType`: data type info about one CSV column. -/
structure ColumnType where
  Name : String
  DataType : ObjectType
deriving DecidableEq, Repr

/-- A CSV row, Go `map[string]string`.  Modelled as an association list
(last write wins); `Row.get` returns the Go zero value `""` when the key is
absent, exactly as a Go map read does. -/
abbrev Row := List (String × String)

def Row.get (r : Row) (k : String) : String :=
  match r.lookup k with
  | some v => v
  | none => ""

/-- Go `row[k] = v`: overwrite the binding if present, else append. -/
def Row.set (r : Row) (k v : String) : Row :=
  match r with
  | [] => [(k, v)]
  | (k', v') :: rest => if k' = k then (k, v) :: rest else (k', v') :: Row.set rest k v

/-- `object.CSV`. -/
structure CSV where
  Headers : List String
  ColumnTypes : List ColumnType
  Rows : List Row
deriving DecidableEq, Repr

/-- The csvlang value model, `object.Object`.  `returnValue` wraps the inner
object, which may be Go-`nil` (hence `Option`).  Array elements are the raw
interface values and may also be `nil`.  `object.Function` values (closures)
are not representable in this value-level model and none of the embedded AST
nodes creates one; built-in handles carry their name. -/
inductive Obj where
  | null : Obj
  | integer (value : Int) : Obj
  | string (value : String) : Obj
  | boolean (value : Bool) : Obj
  | returnValue (value : Option Obj) : Obj
  | error (message : String) : Obj
  | array (elements : List (Option Obj)) : Obj
  | csv (value : CSV) : Obj
  | builtin (name : String) : Obj
deriving Repr

/-- `Type()` dispatch over the value model. -/
def Obj.type : Obj → ObjectType
  | .null => NULL_OBJ
  | .integer _ => INTEGER_OBJ
  | .string _ => STRING_OBJ
  | .boolean _ => BOOLEAN_OBJ
  | .returnValue _ => RETURN_VALUE_OBJ
  | .error _ => ERROR_OBJ
  | .array _ => ARRAY
  | .csv _ => CSV_OBJ
  | .builtin _ => BUILTIN_OBJ

/-- Two's-complement wrap-around into the `int64` range, applied where the Go
code performs native `int64` arithmetic. -/
def int64wrap (x : Int) : Int :=
  (x + 2 ^ 63) % 2 ^ 64 - 2 ^ 63

/-- `strconv.ParseInt(s, 10, 64)`: optional sign, at least one decimal digit,
result within the `int64` range; `none` on any failure.  (`strconv.Atoi` is
`ParseInt(s, 10, 0)` with 64-bit `int`, i.e. the same function here.) -/
def goParseInt64 (s : String) : Option Int :=
  let chars := s.data
  let (neg, digits) :=
    match chars with
    | '-' :: rest => (true, rest)
    | '+' :: rest => (false, rest)
    | rest => (false, rest)
  if digits = [] then none
  else if digits.all (fun c => c.isDigit) then
    let n : Nat := digits.foldl (fun acc c => acc * 10 + (c.toNat - '0'.toNat)) 0
    let v : Int := if neg then -(n : Int) else (n : Int)
    if v < -(2 ^ 63) ∨ v > 2 ^ 63 - 1 then none else some v
  else none

/-- `strconv.ParseBool`: accepts exactly these literals. -/
def goParseBool (s : String) : Option Bool :=
  if s = "1" ∨ s = "t" ∨ s = "T" ∨ s = "TRUE" ∨ s = "true" ∨ s = "True" then some true
  else if s = "0" ∨ s = "f" ∨ s = "F" ∨ s = "FALSE" ∨ s = "false" ∨ s = "False" then some false
  else none

/-- Go string comparison is byte-wise lexicographic; on (valid UTF-8) Lean
strings this is `String.lt` (codepoint order agrees with byte order). -/
def goStringLt (a b : String) : Bool := decide (a < b)

/-- `isError`: non-nil and of type `ERROR`; `isError(nil)` is `false`. -/
def isError : Option Obj → Bool
  | some o => o.type = ERROR_OBJ
  | none => false

/-- `isTruthy`: pointer comparison against the interned `NULL`/`TRUE`/`FALSE`
singletons; a Go `nil` interface matches none of them and falls to the
`default: true` branch. -/
def isTruthy : Option Obj → Bool
  | some .null => false
  | some (.boolean b) => b
  | _ => true

/-- `nativeBoolToBooleanObject`. -/
def nativeBoolToBooleanObject (input : Bool) : Obj := .boolean input

/-- Go interface pointer equality `left == right` as used by
`evalInfixExpression` for `==`/`!=`.  `TRUE`, `FALSE` and `NULL` are interned
singletons, so those compare by value; operands of different dynamic types
are never equal; all remaining objects are freshly allocated by the
evaluator, so distinct evaluation results compare unequal.  (Aliasing of one
allocation through two expressions is beyond this value model; no theorem
below relies on `goRefEq` for same-typed non-atom operands.) -/
def goRefEq : Obj → Obj → Bool
  | .boolean a, .boolean b => a = b
  | .null, .null => true
  | _, _ => false

/-- `evalIntegerInfixExpression`.  `none` models a Go panic: the failed type
assertion `left.(*object.Integer)` on a non-integer operand, or the uncheck​ed
`leftVal / rightVal` with a zero divisor.  Go's `int64` division truncates
toward zero and wraps on `MinInt64 / -1`. -/
def evalIntegerInfixExpression (operator : String) (left right : Obj) : Option Obj :=
  match left, right with
  | .integer leftVal, .integer rightVal =>
    match operator with
    | "+" => some (.integer (int64wrap (leftVal + rightVal)))
    | "-" => some (.integer (int64wrap (leftVal - rightVal)))
    | "*" => some (.integer (int64wrap (leftVal * rightVal)))
    | "/" =>
      if rightVal = 0 then none
      else some (.integer (int64wrap (Int.tdiv leftVal rightVal)))
    | "<" => some (nativeBoolToBooleanObject (leftVal < rightVal))
    | ">" => some (nativeBoolToBooleanObject (leftVal > rightVal))
    | "==" => some (nativeBoolToBooleanObject (leftVal = rightVal))
    | "!=" => some (nativeBoolToBooleanObject (leftVal ≠ rightVal))
    | _ => some (.error ("unknown operator: " ++ left.type ++ " " ++ operator ++ " " ++ right.type))
  | _, _ => none

/-- `evalStringInfixExpression`: only `+` (concatenation) is supported. -/
def evalStringInfixExpression (operator : String) (left right : Obj) : Option Obj :=
  if operator ≠ "+" then
    some (.error ("unknown operator: " ++ left.type ++ " " ++ operator ++ " " ++ right.type))
  else
    match left, right with
    | .string leftVal, .string rightVal => some (.string (leftVal ++ rightVal))
    | _, _ => none

/-- `evalInfixExpression`.  Note the case order of the Go `switch`: the
integer/integer case, then `==`, then `!=`, and only then the
type-mismatch check — so `==`/`!=` on mixed-typed operands compare
referential identity instead of erroring.  A `nil` operand panics as soon
as the switch calls `.Type()` on it: always for a nil left operand; for a
nil right operand only when the left one is an `Integer` (first guard) or
when the `==`/`!=` cases are passed over (`x == nil` is simply `false` for
a non-nil `x`, without any method call). -/
def evalInfixExpression (operator : String) (left right : Option Obj) : Option Obj :=
  match left, right with
  | none, _ => none
  | some l, none =>
    if l.type = INTEGER_OBJ then none
    else if operator = "==" then some (nativeBoolToBooleanObject false)
    else if operator = "!=" then some (nativeBoolToBooleanObject true)
    else none
  | some l, some r =>
    if l.type = INTEGER_OBJ ∧ r.type = INTEGER_OBJ then
      evalIntegerInfixExpression operator l r
    else if operator = "==" then
      some (nativeBoolToBooleanObject (goRefEq l r))
    else if operator = "!=" then
      some (nativeBoolToBooleanObject (!goRefEq l r))
    else if l.type ≠ r.type then
      some (.error ("type mismatch: " ++ l.type ++ " " ++ operator ++ " " ++ r.type))
    else if l.type = STRING_OBJ ∧ r.type = STRING_OBJ then
      evalStringInfixExpression operator l r
    else
      some (.error ("unknown operator: " ++ l.type ++ " " ++ operator ++ " " ++ r.type))

/-- `evalBangOperatorExpression`: pointer comparison against the interned
atoms; everything else — including a Go `nil` operand — falls to the
`default` branch and yields `FALSE`. -/
def evalBangOperatorExpression (right : Option Obj) : Obj :=
  match right with
  | some (.boolean true) => .boolean false
  | some (.boolean false) => .boolean true
  | some .null => .boolean true
  | _ => .boolean false

/-- `evalMinusPrefixOperatorExpression`; `right.Type()` on `nil` panics. -/
def evalMinusPrefixOperatorExpression (right : Option Obj) : Option Obj :=
  match right with
  | some (.integer value) => some (.integer (int64wrap (-value)))
  | some r => some (.error ("unknown operator: -" ++ r.type))
  | none => none

/-- `evalPrefixExpression`; the unknown-operator branch formats
`right.Type()` and hence panics on `nil`. -/
def evalPrefixExpression (operator : String) (right : Option Obj) : Option Obj :=
  if operator = "!" then some (evalBangOperatorExpression right)
  else if operator = "-" then evalMinusPrefixOperatorExpression right
  else
    match right with
    | some r => some (.error ("unknown operator: " ++ operator ++ r.type))
    | none => none

/-- `evalArrayIndexExpression`.  The result is the raw element (which may be
a Go `nil`); an out-of-range index returns the `NULL` object.  The outer
`Option` models the type assertions' panic on non-array/non-integer input
(its callers have already checked the types). -/
def evalArrayIndexExpression (array index : Obj) : Option (Option Obj) :=
  match array, index with
  | .array elements, .integer idx =>
    if idx < 0 ∨ idx > (elements.length : Int) - 1 then some (some .null)
    else some (elements.getD idx.toNat none)
  | _, _ => none

/-- `evalIndexExpression`.  `left.Type()` on `nil` panics; a `nil` index
panics only when the left operand is an array (the `&&` short-circuits and
the `default` branch formats only `left.Type()`). -/
def evalIndexExpression (left index : Option Obj) : Option (Option Obj) :=
  match left, index with
  | none, _ => none
  | some l, none =>
    if l.type = ARRAY then none
    else some (some (.error ("index operator not supported: " ++ l.type)))
  | some l, some i =>
    if l.type = ARRAY ∧ i.type = INTEGER_OBJ then
      evalArrayIndexExpression l i
    else
      some (some (.error ("index operator not supported: " ++ l.type)))

/-- The checks and write of `evalIndexAssignmentExpression` after its three
sub-expressions have been evaluated (lines 160–179 of evaluator.go).  Go
mutates `arr.Elements[idx]` in place; the second component is the array's
post-state, which the failure branches leave untouched. -/
def evalIndexAssignmentChecks (array index value : Obj) : Obj × Obj :=
  match array with
  | .array elements =>
    match index with
    | .integer idx =>
      if idx < 0 ∨ idx ≥ (elements.length : Int) then
        (.error ("array index out of bounds: " ++ toString idx), array)
      else
        (value, .array (elements.set idx.toNat (some value)))
    | _ => (.error ("array index must be INTEGER, got " ++ index.type), array)
  | _ => (.error ("index assignment not supported for type: " ++ array.type), array)

/-- `selectRows`: `-2` selects all rows, a valid index the singleton row,
anything else nothing. -/
def selectRows (rows : List Row) (rowIndex : Int) : List Row :=
  if rowIndex = -2 then rows
  else if rowIndex ≥ (rows.length : Int) ∨ rowIndex < 0 then []
  else [rows.getD rowIndex.toNat []]

/-- `evaluateNumericCondition`. -/
def evaluateNumericCondition (columnValue : String) (operator : String)
    (compareValue : Int) : Bool :=
  match goParseInt64 columnValue with
  | none => false
  | some rowVal =>
    match operator with
    | ">" => rowVal > compareValue
    | "<" => rowVal < compareValue
    | ">=" => rowVal ≥ compareValue
    | "<=" => rowVal ≤ compareValue
    | "==" => rowVal = compareValue
    | "!=" => rowVal ≠ compareValue
    | _ => false

/-- `evaluateStringCondition`. -/
def evaluateStringCondition (columnValue : String) (operator : String)
    (compareValue : String) : Bool :=
  match operator with
  | "==" => columnValue = compareValue
  | "!=" => columnValue ≠ compareValue
  | ">" => goStringLt compareValue columnValue
  | "<" => goStringLt columnValue compareValue
  | ">=" => !goStringLt columnValue compareValue
  | "<=" => !goStringLt compareValue columnValue
  | _ => false

/-- `evaluateBooleanCondition`. -/
def evaluateBooleanCondition (columnValue : String) (operator : String)
    (compareValue : Bool) : Bool :=
  match goParseBool columnValue with
  | none => false
  | some rowVal =>
    match operator with
    | "==" => rowVal = compareValue
    | "!=" => rowVal ≠ compareValue
    | _ => false

/-- `extractColumns`: project one column, coercing integer-parsable cells. -/
def extractColumns (rows : List Row) (column : String) : Obj :=
  .array (rows.filterMap (fun row =>
    match row.lookup column with
    | none => none
    | some val =>
      match goParseInt64 val with
      | some intValue => some (some (.integer intValue))
      | none => some (some (.string val))))

/-! ## Environment (`object/environment.go`)

`Environment` is a `map[string]Object` (whose values may be `nil`) plus an
optional outer environment.  The store is an association list in insertion
order; `Set` always writes the innermost store, `Get` walks outward. -/

inductive Env where
  | mk (store : List (String × Option Obj)) (outer : Option Env)

def Env.getStore : Env → List (String × Option Obj)
  | .mk store _ => store

/-- Go `e.store[name] = val` on the association-list store. -/
def storeSet (store : List (String × Option Obj)) (name : String) (val : Option Obj) :
    List (String × Option Obj) :=
  match store with
  | [] => [(name, val)]
  | (k, v) :: rest => if k = name then (name, val) :: rest else (k, v) :: storeSet rest name val

/-- `Environment.Get`: `some v` means the map read succeeded with value `v`
(which itself may be the `nil` object). -/
def Env.get : Env → String → Option (Option Obj)
  | .mk store outer, name =>
    match store.lookup name with
    | some v => some v
    | none =>
      match outer with
      | some o => Env.get o name
      | none => none

/-- `Environment.Set`: writes the innermost store. -/
def Env.set : Env → String → Option Obj → Env
  | .mk store outer, name, val => .mk (storeSet store name val) outer

/-- `NewEnclosedEnvironment`. -/
def newEnclosedEnvironment (outer : Env) : Env := .mk [] (some outer)

/-- The outer environment, with a fallback for the (unreachable) outermost
case; used to recover the loop's parent environment, which Go shares by
pointer. -/
def Env.outerD : Env → Env → Env
  | .mk _ (some o), _ => o
  | .mk _ none, d => d

/-! ## AST (`ast/ast.go`), restricted to the node kinds this development
evaluates.  `LoadStatement` and `SaveStatement` (file I/O), and
`FunctionLiteral`/`CallExpression` (closures capture environments by
reference) are outside the value-level model; `IndexAssignmentExpression`
mutates a heap array in place and is modelled separately by
`evalIndexAssignmentChecks`. -/

mutual
inductive Expr where
  | integerLit (value : Int)
  | stringLit (value : String)
  | booleanLit (value : Bool)
  | ident (name : String)
  | prefixE (operator : String) (right : Expr)
  | infixE (operator : String) (left right : Expr)
  | ifE (condition : Expr) (consequence : List Stmt) (alternative : Option (List Stmt))
  | arrayLit (elements : List Expr)
  | indexE (left index : Expr)
  | readE (location : Location)
  | forE (indexName elementName : String) (iterable : Expr) (body : List Stmt)

inductive Stmt where
  | exprStmt (e : Expr)
  | letStmt (name : String) (value : Expr)
  | assignStmt (name : String) (value : Expr)
  | returnStmt (value : Expr)
  | readStmt (location : Location)
  | forStmt (indexName elementName : String) (iterable : Expr) (body : List Stmt)

/-- `ast.LocationExpression`: `rowIndex` is a row number, `-2` for `*`, or
`-1` for the parse-failure sentinel. -/
inductive Location where
  | mk (rowIndex : Int) (colIndex : String) (filter : Option Filter)

/-- `ast.ReadFilterExpression`. -/
inductive Filter where
  | mk (columnName operator : String) (value : Expr)
end

def Location.rowIndex : Location → Int
  | .mk r _ _ => r

def Location.colIndex : Location → String
  | .mk _ c _ => c

def Location.filter : Location → Option Filter
  | .mk _ _ f => f

def Filter.columnName : Filter → String
  | .mk c _ _ => c

def Filter.operator : Filter → String
  | .mk _ o _ => o

def Filter.value : Filter → Expr
  | .mk _ _ v => v

/-- The keys of the evaluator's `builtins` table (`evaluator/builtins.go`). -/
def builtinNames : List String :=
  ["len", "first", "last", "rest", "push", "pop", "unique", "sum", "avg", "count", "fill_empty"]

/-- `evalIdentifier`: environment lookup (walking outward), then the
built-ins table, then an error. -/
def evalIdentifier (name : String) (env : Env) : Option Obj :=
  match env.get name with
  | some val => val
  | none =>
    if builtinNames.contains name then some (.builtin name)
    else some (.error ("identifier not found: " ++ name))

/-- Copy loop-frame bindings whose names exist in the parent environment
back into it (`evalForLoopStatement`'s final loop).  Go iterates the store
map in unspecified order; the model iterates in insertion order. -/
def copyBack (store : List (String × Option Obj)) (env : Env) : Env :=
  match store with
  | [] => env
  | (name, val) :: rest =>
    match env.get name with
    | some _ => copyBack rest (env.set name val)
    | none => copyBack rest env

/-- An evaluation result: `none` when the Go program panics (or the model
runs out of fuel), otherwise the produced object (possibly Go `nil`) and
the post-state of the environment, which Go mutates in place. -/
abbrev EvalRes := Option (Option Obj × Env)

/-! ## The evaluator (`evaluator/evaluator.go`), fuel-indexed.

Fuel is a termination device only: it is decremented at every recursive
call, every equation matches on `fuel + 1`, and exhaustion yields the stuck
result `none`.  Any terminating Go evaluation is reproduced for all
sufficiently large fuel. -/

mutual
/-- `Eval` on expression nodes. -/
def evalExpr : Nat → Expr → Env → EvalRes
  | 0, _, _ => none
  | _ + 1, .integerLit n, env => some (some (.integer n), env)
  | _ + 1, .stringLit s, env => some (some (.string s), env)
  | _ + 1, .booleanLit b, env => some (some (nativeBoolToBooleanObject b), env)
  | _ + 1, .ident name, env => some (evalIdentifier name env, env)
  | fuel + 1, .prefixE op r, env => do
    let (right, env₁) ← evalExpr fuel r env
    if isError right then some (right, env₁)
    else do
      let v ← evalPrefixExpression op right
      some (some v, env₁)
  | fuel + 1, .infixE op l r, env => do
    let (left, env₁) ← evalExpr fuel l env
    if isError left then some (left, env₁)
    else do
      let (right, env₂) ← evalExpr fuel r env₁
      if isError right then some (right, env₂)
      else do
        let v ← evalInfixExpression op left right
        some (some v, env₂)
  | fuel + 1, .ifE c cons alt, env => evalIfExpression fuel c cons alt env
  | fuel + 1, .arrayLit es, env => do
    let (elements, env₁) ← evalExpressions fuel es env
    if elements.length = 1 ∧ isError (elements.getD 0 none) then
      some (elements.getD 0 none, env₁)
    else some (some (.array elements), env₁)
  | fuel + 1, .indexE l i, env => do
    let (left, env₁) ← evalExpr fuel l env
    if isError left then some (left, env₁)
    else do
      let (index, env₂) ← evalExpr fuel i env₁
      if isError index then some (index, env₂)
      else do
        let v ← evalIndexExpression left index
        some (v, env₂)
  | fuel + 1, .readE loc, env => evalReadStatement fuel loc env
  | fuel + 1, .forE iname ename iter body, env =>
    evalForLoopStatement fuel iname ename iter body env

/-- `Eval` on statement nodes.  A `let` statement falls through the Go
switch without returning, so its result is `nil`. -/
def evalStmt : Nat → Stmt → Env → EvalRes
  | 0, _, _ => none
  | fuel + 1, .exprStmt e, env => evalExpr fuel e env
  | fuel + 1, .letStmt name e, env => do
    let (val, env₁) ← evalExpr fuel e env
    if isError val then some (val, env₁)
    else some (none, env₁.set name val)
  | fuel + 1, .assignStmt name e, env => do
    let (val, env₁) ← evalExpr fuel e env
    if isError val then some (val, env₁)
    else
      match env₁.get name with
      | none => some (some (.error ("identifier not found: " ++ name)), env₁)
      | some _ => some (val, env₁.set name val)
  | fuel + 1, .returnStmt e, env => do
    let (val, env₁) ← evalExpr fuel e env
    if isError val then some (val, env₁)
    else some (some (.returnValue val), env₁)
  | fuel + 1, .readStmt loc, env => evalReadStatement fuel loc env
  | fuel + 1, .forStmt iname ename iter body, env =>
    evalForLoopStatement fuel iname ename iter body env

/-- `evalBlockStatement`: stop at the first `RETURN_VALUE` or `ERROR`
result; the block's value is the last statement's result (`nil` for an
empty block). -/
def evalBlockStatement : Nat → List Stmt → Env → EvalRes
  | 0, _, _ => none
  | _ + 1, [], env => some (none, env)
  | fuel + 1, s :: rest, env => do
    let (result, env₁) ← evalStmt fuel s env
    match result with
    | some r =>
      if r.type = RETURN_VALUE_OBJ ∨ r.type = ERROR_OBJ then some (some r, env₁)
      else
        match rest with
        | [] => some (some r, env₁)
        | _ => evalBlockStatement fuel rest env₁
    | none =>
      match rest with
      | [] => some (none, env₁)
      | _ => evalBlockStatement fuel rest env₁

/-- `evalProgram`: unwrap a `ReturnValue`, stop at an `Error`, else the
last statement's result. -/
def evalProgram : Nat → List Stmt → Env → EvalRes
  | 0, _, _ => none
  | _ + 1, [], env => some (none, env)
  | fuel + 1, s :: rest, env => do
    let (result, env₁) ← evalStmt fuel s env
    match result with
    | some (.returnValue v) => some (v, env₁)
    | some (.error m) => some (some (.error m), env₁)
    | _ =>
      match rest with
      | [] => some (result, env₁)
      | _ => evalProgram fuel rest env₁

/-- `evalExpressions`: left-to-right, short-circuiting to a singleton list
on the first error. -/
def evalExpressions : Nat → List Expr → Env → Option (List (Option Obj) × Env)
  | 0, _, _ => none
  | _ + 1, [], env => some ([], env)
  | fuel + 1, e :: rest, env => do
    let (evaluated, env₁) ← evalExpr fuel e env
    if isError evaluated then some ([evaluated], env₁)
    else do
      let (restVals, env₂) ← evalExpressions fuel rest env₁
      some (evaluated :: restVals, env₂)

/-- `evalIfExpression`: the chosen block is evaluated in the same
environment (no new scope). -/
def evalIfExpression : Nat → Expr → List Stmt → Option (List Stmt) → Env → EvalRes
  | 0, _, _, _, _ => none
  | fuel + 1, c, cons, alt, env => do
    let (condition, env₁) ← evalExpr fuel c env
    if isError condition then some (condition, env₁)
    else if isTruthy condition then evalBlockStatement fuel cons env₁
    else
      match alt with
      | some altBlock => evalBlockStatement fuel altBlock env₁
      | none => some (some .null, env₁)

/-- `evalReadStatement`: a missing or non-`CSV` `csv` binding returns the
Go `nil` object (not `NULL`, not an `Error`). -/
def evalReadStatement : Nat → Location → Env → EvalRes
  | 0, _, _ => none
  | fuel + 1, loc, env =>
    match env.get "csv" with
    | none => some (none, env)
    | some csvBinding =>
      match csvBinding with
      | some (.csv csvObj) =>
        let rows := selectRows csvObj.Rows loc.rowIndex
        (match loc.filter with
         | some f => do
           let (rows₂, env₁) ← filterRows fuel rows f env
           if loc.colIndex ≠ "" then some (some (extractColumns rows₂ loc.colIndex), env₁)
           else some (some (.csv ⟨csvObj.Headers, csvObj.ColumnTypes, rows₂⟩), env₁)
         | none =>
           if loc.colIndex ≠ "" then some (some (extractColumns rows loc.colIndex), env)
           else some (some (.csv ⟨csvObj.Headers, csvObj.ColumnTypes, rows⟩), env))
      | _ => some (none, env)

/-- `evaluateCondition`: evaluate the filter's value expression (its
environment effects persist), dispatch on the value's type; an error value
or an unsupported type fails the condition; `compareValue.Type()` on a
`nil` value panics. -/
def evaluateCondition : Nat → Row → Filter → Env → Option (Bool × Env)
  | 0, _, _, _ => none
  | fuel + 1, row, f, env =>
    let columnValue := row.get f.columnName
    match evalExpr fuel f.value env with
    | none => none
    | some (compareValue, env₁) =>
      if isError compareValue then some (false, env₁)
      else
        match compareValue with
        | some (.integer v) => some (evaluateNumericCondition columnValue f.operator v, env₁)
        | some (.string s) => some (evaluateStringCondition columnValue f.operator s, env₁)
        | some (.boolean b) => some (evaluateBooleanCondition columnValue f.operator b, env₁)
        | some _ => some (false, env₁)
        | none => none

/-- `filterRows`: keep the rows satisfying the condition, in order. -/
def filterRows : Nat → List Row → Filter → Env → Option (List Row × Env)
  | 0, _, _, _ => none
  | _ + 1, [], _, env => some ([], env)
  | fuel + 1, row :: rest, f, env => do
    let (keep, env₁) ← evaluateCondition fuel row f env
    let (tail, env₂) ← filterRows fuel rest f env₁
    some (if keep then row :: tail else tail, env₂)

/-- `evalForLoopStatement`: evaluate the iterable, require an array, run
the iterations, return `NULL`.  `iterableObj.Type()` in the failure branch
panics on `nil`. -/
def evalForLoopStatement : Nat → String → String → Expr → List Stmt → Env → EvalRes
  | 0, _, _, _, _, _ => none
  | fuel + 1, iname, ename, iterable, body, env => do
    let (iterableObj, env₁) ← evalExpr fuel iterable env
    if isError iterableObj then some (iterableObj, env₁)
    else
      match iterableObj with
      | some (.array elements) => do
        let (_, env₂) ← forLoopIter fuel iname ename elements elements 0 body env₁
        some (some .null, env₂)
      | some other =>
        some (some (.error ("for loop iterable must be ARRAY, got " ++ other.type)), env₁)
      | none => none

/-- One pass of the `for i, element := range elements` loop.  Per
iteration: a fresh enclosed scope binding the index and element names; the
body is evaluated and its result DISCARDED (errors included); the aliased
array is updated in place from the element binding; bindings of names
visible in the parent are copied back.  Returns the array's and the parent
environment's post-states. -/
def forLoopIter : Nat → String → String → List (Option Obj) → List (Option Obj) → Nat →
    List Stmt → Env → Option (List (Option Obj) × Env)
  | 0, _, _, _, _, _, _, _ => none
  | _ + 1, _, _, [], arr, _, _, env => some (arr, env)
  | fuel + 1, iname, ename, element :: restElems, arr, i, body, env => do
    let loopEnv := ((newEnclosedEnvironment env).set iname (some (.integer i))).set ename element
    let (_, loopEnv₁) ← evalBlockStatement fuel body loopEnv
    let arr₁ :=
      match loopEnv₁.get ename with
      | some val => arr.set i val
      | none => arr
    let env₁ := copyBack loopEnv₁.getStore (loopEnv₁.outerD env)
    forLoopIter fuel iname ename restElems arr₁ (i + 1) body env₁
end

/-! ## `Inspect` (`object/object.go`)

`Inspect` renders an object.  It is total except on `nil` receivers: a
`ReturnValue` wrapping `nil` and an array containing a `nil` element
dereference `nil` and panic (`none`).  String lengths are counted in
characters, which agrees with Go's byte counts on ASCII data. -/

/-- Pad `s` on the right to width `w` (Go `fmt.Sprintf("%-*s", w, s)`). -/
def padRight (s : String) (w : Nat) : String :=
  s ++ String.mk (List.replicate (w - s.length) ' ')

/-- Column width used by `CSV.Inspect`: the widest of the header and all
cell values under it. -/
def csvColWidth (c : CSV) (h : String) : Nat :=
  c.Rows.foldl (fun w row => max w (Row.get row h).length) h.length

/-- `(*CSV).Inspect`: padded header line, dash separator, padded rows. -/
def CSV.inspect (c : CSV) : String :=
  let headerLine := String.join (c.Headers.map (fun h => padRight h (csvColWidth c h) ++ " "))
  let sepLine := String.join (c.Headers.map (fun h => String.mk (List.replicate (csvColWidth c h) '-') ++ " "))
  let rowLines := String.join (c.Rows.map (fun row =>
    String.join (c.Headers.map (fun h => padRight (Row.get row h) (csvColWidth c h) ++ " ")) ++ "\n"))
  headerLine ++ "\n" ++ sepLine ++ "\n" ++ rowLines

mutual
/-- `Inspect` dispatch. -/
def Obj.inspect : Obj → Option String
  | .integer v => some (toString v)
  | .string s => some s
  | .boolean b => some (if b then "true" else "false")
  | .null => some "null"
  | .returnValue v =>
    match v with
    | some o => Obj.inspect o
    | none => none
  | .error m => some ("ERROR: " ++ m)
  | .builtin _ => some "builtin function"
  | .csv c => some c.inspect
  | .array elems => do
    let strs ← inspectElems elems
    some ("[" ++ String.intercalate ", " strs ++ "]")

/-- `Inspect` each array element; a `nil` element panics. -/
def inspectElems : List (Option Obj) → Option (List String)
  | [] => some []
  | none :: _ => none
  | some o :: rest => do
    let s ← Obj.inspect o
    let srest ← inspectElems rest
    some (s :: srest)
end

/-! ## CSV construction and the built-ins
(`object/object.go`, `evaluator/builtins.go`, `evalLoadStatement`) -/

/-- `(*CSV).InferColumnTypes`: no-op on an empty table (leaving
`ColumnTypes` as it was — `nil` for a freshly loaded table); otherwise one
entry per header, `INTEGER` iff the first row's cell parses via
`strconv.Atoi`, else `STRING`. -/
def CSV.InferColumnTypes (c : CSV) : CSV :=
  match c.Rows with
  | [] => c
  | firstRow :: _ =>
    { c with
      ColumnTypes := c.Headers.map (fun header =>
        if (goParseInt64 (Row.get firstRow header)).isSome then
          ⟨header, INTEGER_OBJ⟩
        else ⟨header, STRING_OBJ⟩) }

/-- The pure core of `evalLoadStatement` once the CSV reader has produced
`headers` and `records`: build the row maps (`row[header] = record[j]`;
`encoding/csv` guarantees every record has exactly `headers.length`
fields, modelled with a `""` default) and infer the column types.  The
wrapper additionally opens the file and stores the `filename` and `csv`
bindings. -/
def evalLoadCore (headers : List String) (records : List (List String)) : CSV :=
  CSV.InferColumnTypes
    ⟨headers, [],
      records.map (fun record =>
        headers.enum.foldl (fun row (j, header) => Row.set row header (record.getD j "")) [])⟩

/-- `object.InferType`: a `nil` value hits the `default` branch. -/
def InferType (obj : Option Obj) : ColumnType :=
  match obj with
  | some (.integer _) => ⟨"", INTEGER_OBJ⟩
  | some (.string _) => ⟨"", STRING_OBJ⟩
  | some (.boolean _) => ⟨"", BOOLEAN_OBJ⟩
  | _ => ⟨"", STRING_OBJ⟩

/-- `object.isCompatibleType`. -/
def isCompatibleType (value : Option Obj) (colType : ColumnType) : Bool :=
  if colType.DataType = INTEGER_OBJ then
    match value with | some (.integer _) => true | _ => false
  else if colType.DataType = STRING_OBJ then
    match value with | some (.string _) => true | _ => false
  else if colType.DataType = BOOLEAN_OBJ then
    match value with | some (.boolean _) => true | _ => false
  else true

/-- `evaluator.isCompatibleColumnType`. -/
def isCompatibleColumnType (target source : ColumnType) : Bool :=
  if target.DataType = STRING_OBJ then true
  else target.DataType = source.DataType

/-- The type-validation loop of `mergeCSVs`: walk `target.ColumnTypes`;
`source.ColumnTypes[i]` (and `target.Headers[i]` in the message) can be out
of range and panic.  `some none` means all columns compatible. -/
def mergeCheckTypes (headers : List String) (sourceTypes : List ColumnType) :
    Nat → List ColumnType → Option (Option String)
  | _, [] => some none
  | i, targetType :: rest =>
    match sourceTypes.get? i with
    | none => none
    | some st =>
      if isCompatibleColumnType targetType st then mergeCheckTypes headers sourceTypes (i + 1) rest
      else
        match headers.get? i with
        | some h => some (some ("incompatible column types for column " ++ h))
        | none => none

/-- `evaluator.mergeCSVs`. -/
def mergeCSVs (target source : CSV) : Option Obj :=
  if source.Headers.length ≠ target.Headers.length then
    some (.error ("column count mismatch: expected " ++ toString target.Headers.length ++
      ", got " ++ toString source.Headers.length))
  else
    match mergeCheckTypes target.Headers source.ColumnTypes 0 target.ColumnTypes with
    | none => none
    | some (some msg) => some (.error msg)
    | some none => some (.csv ⟨target.Headers, target.ColumnTypes, target.Rows ++ source.Rows⟩)

/-- `(*Integer).ToCSV`.  The environment's `csv` binding, if any, must be a
`CSV` (the unchecked assertion panics otherwise); a non-empty header list
donates its first header and column type (`ColumnTypes[0]` panics when the
invariant `|ColumnTypes| = |Headers|` fails), validated against `INTEGER`;
an empty first header falls back to `col1`/`INTEGER`. -/
def intToCSV (i : Int) (env : Env) : Option (Except String CSV) :=
  match env.get "csv" with
  | none => some (.ok ⟨["col1"], [⟨"", INTEGER_OBJ⟩], [[("col1", toString i)]]⟩)
  | some (some (.csv currentCSV)) =>
    if currentCSV.Headers = [] then
      some (.ok ⟨["col1"], [⟨"", INTEGER_OBJ⟩], [[("col1", toString i)]]⟩)
    else
      match currentCSV.ColumnTypes.head? with
      | none => none
      | some columnType =>
        if ¬ (columnType.DataType = INTEGER_OBJ ∨ columnType.DataType = STRING_OBJ) then
          some (.error ("type mismatch: cannot convert INTEGER to " ++ columnType.DataType))
        else
          let header := currentCSV.Headers.headD ""
          if header = "" then
            some (.ok ⟨["col1"], [⟨"", INTEGER_OBJ⟩], [[("col1", toString i)]]⟩)
          else some (.ok ⟨[header], [columnType], [[(header, toString i)]]⟩)
  | some _ => none

/-- `(*String).ToCSV` (no type validation). -/
def stringToCSV (s : String) (env : Env) : Option (Except String CSV) :=
  match env.get "csv" with
  | none => some (.ok ⟨["col1"], [⟨"", STRING_OBJ⟩], [[("col1", s)]]⟩)
  | some (some (.csv currentCSV)) =>
    if currentCSV.Headers = [] then
      some (.ok ⟨["col1"], [⟨"", STRING_OBJ⟩], [[("col1", s)]]⟩)
    else
      match currentCSV.ColumnTypes.head? with
      | none => none
      | some columnType =>
        let header := currentCSV.Headers.headD ""
        if header = "" then
          some (.ok ⟨["col1"], [⟨"", STRING_OBJ⟩], [[("col1", s)]]⟩)
        else some (.ok ⟨[header], [columnType], [[(header, s)]]⟩)
  | some _ => none

/-- `(*Boolean).ToCSV` (validated against `BOOLEAN`/`STRING`). -/
def boolToCSV (b : Bool) (env : Env) : Option (Except String CSV) :=
  let rendered := if b then "true" else "false"
  match env.get "csv" with
  | none => some (.ok ⟨["col1"], [⟨"", BOOLEAN_OBJ⟩], [[("col1", rendered)]]⟩)
  | some (some (.csv currentCSV)) =>
    if currentCSV.Headers = [] then
      some (.ok ⟨["col1"], [⟨"", BOOLEAN_OBJ⟩], [[("col1", rendered)]]⟩)
    else
      match currentCSV.ColumnTypes.head? with
      | none => none
      | some columnType =>
        if ¬ (columnType.DataType = BOOLEAN_OBJ ∨ columnType.DataType = STRING_OBJ) then
          some (.error ("type mismatch: cannot convert BOOLEAN to " ++ columnType.DataType))
        else
          let header := currentCSV.Headers.headD ""
          if header = "" then
            some (.ok ⟨["col1"], [⟨"", BOOLEAN_OBJ⟩], [[("col1", rendered)]]⟩)
          else some (.ok ⟨[header], [columnType], [[(header, rendered)]]⟩)
  | some _ => none

/-- The generated headers `col1, col2, …` of length `n`. -/
def genHeaders (n : Nat) : List String :=
  (List.range n).map (fun i => "col" ++ toString (i + 1))

/-- The single-row loop of `object.oneDArrayToCSV`: validate each element
against the existing column types when given (`columnTypes[i]` and the
message's `headers[i]` can panic, as can `elem.Type()`/`elem.Inspect()` on
a `nil` element) and record `row[headers[i]] = elem.Inspect()`. -/
def oneDRowBuild (headers : List String) (existingTypes : Option (List ColumnType)) :
    Nat → List (Option Obj) → Row → Option (Except String Row)
  | _, [], row => some (.ok row)
  | i, elem :: rest, row =>
    let validated : Option (Option String) :=
      match existingTypes with
      | none => some none
      | some ts =>
        match ts.get? i with
        | none => none
        | some ct =>
          if isCompatibleType elem ct then some none
          else
            match headers.get? i, elem with
            | some h, some e =>
              some (some ("type mismatch in column " ++ h ++ ": expected " ++ ct.DataType ++
                ", got " ++ e.type))
            | _, _ => none
    match validated with
    | none => none
    | some (some msg) => some (.error msg)
    | some none =>
      match headers.get? i, elem with
      | some h, some e => do
        let s ← Obj.inspect e
        oneDRowBuild headers existingTypes (i + 1) rest (Row.set row h s)
      | _, _ => none

/-- `object.oneDArrayToCSV`. -/
def oneDArrayToCSV (elems : List (Option Obj)) (existingHeaders : Option (List String))
    (existingTypes : Option (List ColumnType)) : Option (Except String CSV) :=
  match existingHeaders with
  | some hs =>
    if elems.length ≠ hs.length then
      some (.error ("array length " ++ toString elems.length ++
        " does not match expected column count " ++ toString hs.length))
    else
      match oneDRowBuild hs existingTypes 0 elems [] with
      | none => none
      | some (.error m) => some (.error m)
      | some (.ok row) => some (.ok ⟨hs, existingTypes.getD [], [row]⟩)
  | none =>
    let headers := genHeaders elems.length
    let columnTypes := elems.map InferType
    match oneDRowBuild headers none 0 elems [] with
    | none => none
    | some (.error m) => some (.error m)
    | some (.ok row) => some (.ok ⟨headers, columnTypes, [row]⟩)

/-- One row of `object.twoDArrayToCSV`'s nested loop: per element, either
validate against the existing types, or (first row without existing types)
infer `columnTypes[j]`, or validate against the inferred types; then record
`rowMap[headers[j]] = elem.Inspect()`.  All the Go index accesses are
guarded (out of range panics). -/
def twoDRowElems (headers : List String) (useExisting : Bool) (isFirstRow : Bool) (rowIdx : Nat) :
    Nat → List (Option Obj) → List ColumnType → Row → Option (Except String (Row × List ColumnType))
  | _, [], cts, rowMap => some (.ok (rowMap, cts))
  | j, elem :: rest, cts, rowMap =>
    let step : Option (Except String (List ColumnType)) :=
      if useExisting ∨ ¬ isFirstRow then
        match cts.get? j with
        | none => none
        | some ct =>
          if isCompatibleType elem ct then some (.ok cts)
          else
            match headers.get? j, elem with
            | some h, some e =>
              some (.error ("type mismatch in row " ++ toString rowIdx ++ ", column " ++ h ++
                ": expected " ++ ct.DataType ++ ", got " ++ e.type))
            | _, _ => none
      else if j < cts.length then some (.ok (cts.set j (InferType elem)))
      else none
    match step with
    | none => none
    | some (.error m) => some (.error m)
    | some (.ok cts₁) =>
      match headers.get? j, elem with
      | some h, some e => do
        let s ← Obj.inspect e
        twoDRowElems headers useExisting isFirstRow rowIdx (j + 1) rest cts₁ (Row.set rowMap h s)
      | _, _ => none

/-- The outer rows loop of `object.twoDArrayToCSV`; every element must be
an array (the unchecked assertion `rowObj.(*Array)` panics otherwise — the
caller has validated this). -/
def twoDRowsBuild (headers : List String) (useExisting : Bool) :
    Nat → List (Option Obj) → List ColumnType → List Row →
    Option (Except String (List Row × List ColumnType))
  | _, [], cts, acc => some (.ok (acc, cts))
  | i, rowObj :: rest, cts, acc =>
    match rowObj with
    | some (.array rowElems) =>
      match twoDRowElems headers useExisting (i = 0) i 0 rowElems cts [] with
      | none => none
      | some (.error m) => some (.error m)
      | some (.ok (rowMap, cts₁)) => twoDRowsBuild headers useExisting (i + 1) rest cts₁ (acc ++ [rowMap])
    | _ => none

/-- `object.twoDArrayToCSV`. -/
def twoDArrayToCSV (elems : List (Option Obj)) (existingHeaders : Option (List String))
    (existingTypes : Option (List ColumnType)) : Option (Except String CSV) :=
  match elems.head? with
  | some (some (.array firstRowElems)) =>
    match existingHeaders with
    | some hs =>
      if firstRowElems.length ≠ hs.length then
        some (.error ("row length " ++ toString firstRowElems.length ++
          " does not match expected column count " ++ toString hs.length))
      else
        match twoDRowsBuild hs true 0 elems (existingTypes.getD []) [] with
        | none => none
        | some (.error m) => some (.error m)
        | some (.ok (rows, cts)) => some (.ok ⟨hs, cts, rows⟩)
    | none =>
      let hs := genHeaders firstRowElems.length
      let cts0 : List ColumnType := List.replicate firstRowElems.length ⟨"", ""⟩
      match twoDRowsBuild hs false 0 elems cts0 [] with
      | none => none
      | some (.error m) => some (.error m)
      | some (.ok (rows, cts)) => some (.ok ⟨hs, cts, rows⟩)
  | _ => none

/-- `object.ArrayToCSV`: fetch the current table's headers/types (the
unchecked assertion panics on a non-`CSV` binding), special-case the empty
array, detect 2-D by the first element and validate uniform row lengths,
then dispatch. -/
def ArrayToCSV (elems : List (Option Obj)) (env : Env) : Option (Except String CSV) :=
  let fromEnv : Option (Option (List String × List ColumnType)) :=
    match env.get "csv" with
    | none => some none
    | some (some (.csv c)) => some (some (c.Headers, c.ColumnTypes))
    | some _ => none
  match fromEnv with
  | none => none
  | some envHT =>
    let existingHeaders := envHT.map (·.1)
    let existingTypes := envHT.map (·.2)
    if elems.isEmpty then
      match existingHeaders with
      | none => some (.ok ⟨[], [], []⟩)
      | some hs => some (.ok ⟨hs, existingTypes.getD [], []⟩)
    else
      match elems.head? with
      | some (some (.array firstElem)) =>
        if elems.all (fun e =>
            match e with
            | some (.array row) => row.length = firstElem.length
            | _ => false) then
          twoDArrayToCSV elems existingHeaders existingTypes
        else some (.error "inconsistent row lengths in 2D array")
      | _ => oneDArrayToCSV elems existingHeaders existingTypes

/-- `Object.ToCSV` dispatch (a method call on a `nil` interface panics). -/
def ToCSV (obj : Option Obj) (env : Env) : Option (Except String CSV) :=
  match obj with
  | none => none
  | some (.integer i) => intToCSV i env
  | some (.string s) => stringToCSV s env
  | some (.boolean b) => boolToCSV b env
  | some .null => some (.error "cannot convert null to CSV")
  | some (.returnValue _) => some (.error "cannot convert return value to CSV")
  | some (.error m) => some (.error ("cannot convert error to CSV: " ++ m))
  | some (.builtin _) => some (.error "cannot convert builtin function to CSV")
  | some (.csv c) => some (.ok c)
  | some (.array elems) => ArrayToCSV elems env

/-- A built-in handler result: the produced object (possibly Go `nil`) and
the environment post-state, or `none` for a panic. -/
abbrev BuiltinRes := Option (Option Obj × Env)

/-- The `push` built-in.  `args[0].Type()` panics on `nil`; when the first
argument is not a CSV, `args[1].Type()` is consulted next and likewise
panics on `nil`. -/
def pushBuiltin (env : Env) (args : List (Option Obj)) : BuiltinRes :=
  if args.length ≠ 2 then some (some (.error "wrong number of arguments"), env)
  else
    match args.getD 0 none with
    | none => none
    | some o0 =>
      match o0 with
      | .csv c =>
        (match ToCSV (args.getD 1 none) env with
         | none => none
         | some (.error m) => some (some (.error m), env)
         | some (.ok toAdd) =>
           match mergeCSVs c toAdd with
           | none => none
           | some res => some (some res, env))
      | _ =>
        match args.getD 1 none with
        | none => none
        | some o1 =>
          match o1 with
          | .csv c1 =>
            (match o0 with
             | .array elems =>
               (match ArrayToCSV elems env with
                | none => none
                | some (.error m) => some (some (.error m), env)
                | some (.ok csvFromArr) =>
                  match mergeCSVs csvFromArr c1 with
                  | none => none
                  | some res => some (some res, env))
             | _ => some (some (.error "first argument must be ARRAY or CSV when pushing CSV"), env))
          | _ =>
            match o0 with
            | .array elems =>
              (match elems with
               | [] => some (some (.array [args.getD 1 none]), env)
               | firstElem :: _ =>
                 match firstElem with
                 | some (.array firstRow) =>
                   (match o1 with
                    | .array pushArr =>
                      if pushArr.length ≠ firstRow.length then
                        some (some (.error ("cannot push array of length " ++ toString pushArr.length ++
                          " to 2D array with row length " ++ toString firstRow.length)), env)
                      else some (some (.array (elems ++ [some (.array pushArr)])), env)
                    | _ => some (some (.error "cannot push non-array value to 2D array"), env))
                 | _ => some (some (.array (elems ++ [args.getD 1 none])), env))
            | _ => some (some (.error "first argument must be ARRAY"), env)

/-- The `pop` built-in: drop the last row of a CSV or the last element of
an array, erroring on empty input.  `args[0].Type()` panics on `nil`. -/
def popBuiltin (env : Env) (args : List (Option Obj)) : BuiltinRes :=
  if args.length ≠ 1 then some (some (.error "wrong number of arguments"), env)
  else
    match args.getD 0 none with
    | none => none
    | some (.csv c) =>
      if c.Rows.isEmpty then some (some (.error "cannot pop from empty CSV"), env)
      else some (some (.csv ⟨c.Headers, c.ColumnTypes, c.Rows.dropLast⟩), env)
    | some (.array elems) =>
      if elems.isEmpty then some (some (.error "cannot pop from empty array"), env)
      else some (some (.array elems.dropLast), env)
    | some _ => some (some (.error "argument must be ARRAY or CSV"), env)

/-- `strings.Join(key, "|")` over the cell values of one CSV row, taken in
header order: the row-identity key of `removeDuplicates`. -/
def rowJoinKey (headers : List String) (row : Row) : String :=
  String.intercalate "|" (headers.map (fun h => Row.get row h))

/-- The `seen`-map loop of `evaluator.removeDuplicates` (the Go
`map[string]bool` is modelled as the list of keys inserted so far). -/
def removeDuplicatesLoop (headers : List String) (seen : List String) (uniqueRows : List Row) :
    List Row → List Row
  | [] => uniqueRows
  | row :: rest =>
    let rowKey := rowJoinKey headers row
    if seen.contains rowKey then removeDuplicatesLoop headers seen uniqueRows rest
    else removeDuplicatesLoop headers (rowKey :: seen) (uniqueRows ++ [row]) rest

/-- `evaluator.removeDuplicates`. -/
def removeDuplicates (c : CSV) : CSV :=
  ⟨c.Headers, c.ColumnTypes, removeDuplicatesLoop c.Headers [] [] c.Rows⟩

/-- The per-row identity key of `removeDuplicatesFrom2dArray`.  The Go code
reuses one `key` slice of length `len(arr.Elements)` (the number of ROWS,
not the row length): writing `key[i]` panics whenever the row is longer
than the table is tall, and shorter rows leave a padding of `""` entries
that `strings.Join` appends to every key (uniformly, since all rows have
the same validated length). -/
def dedup2dKey (padTo : Nat) (rowElems : List (Option Obj)) : Option String :=
  if padTo < rowElems.length then none
  else do
    let strs ← inspectElems rowElems
    some (String.intercalate "|" (strs ++ List.replicate (padTo - rowElems.length) ""))

/-- The `rowMap` built for a kept row: `rowMap[headers[i]] = elem.Inspect()`. -/
def dedup2dRowMap (headers : List String) : Nat → List (Option Obj) → Row → Option Row
  | _, [], rowMap => some rowMap
  | i, elem :: rest, rowMap =>
    match headers.get? i, elem with
    | some h, some e => do
      let s ← Obj.inspect e
      dedup2dRowMap headers (i + 1) rest (Row.set rowMap h s)
    | _, _ => none

/-- The main loop of `removeDuplicatesFrom2dArray`: `some none` models the
Go `return nil` paths (a non-array element or a row of the wrong length),
`none` a panic. -/
def dedup2dLoop (headers : List String) (padTo rowLength : Nat) (seen : List String)
    (acc : List Row) : List (Option Obj) → Option (Option (List Row))
  | [] => some (some acc)
  | rowObj :: rest =>
    match rowObj with
    | some (.array rowElems) =>
      if rowElems.length ≠ rowLength then some none
      else
        match dedup2dKey padTo rowElems with
        | none => none
        | some rowKey =>
          if seen.contains rowKey then dedup2dLoop headers padTo rowLength seen acc rest
          else
            match dedup2dRowMap headers 0 rowElems [] with
            | none => none
            | some rowMap =>
              dedup2dLoop headers padTo rowLength (rowKey :: seen) (acc ++ [rowMap]) rest
    | _ => some none

/-- `evaluator.removeDuplicatesFrom2dArray`.  The inner `Option` is the Go
`nil` `*object.CSV` returned on validation failures (a typed nil pointer —
unusable as a table); the outer `Option` is a panic (a non-`CSV` `csv`
binding's unchecked assertion, a nil element's `Inspect`, or the key-slice
overflow described at `dedup2dKey`). -/
def removeDuplicatesFrom2dArray (elems : List (Option Obj)) (env : Env) :
    Option (Option CSV) :=
  match elems with
  | [] => some (some ⟨[], [], []⟩)
  | firstElem :: _ =>
    match firstElem with
    | some (.array firstRow) =>
      let rowLength := firstRow.length
      let fromEnv : Option (Option (List String × List ColumnType)) :=
        match env.get "csv" with
        | none => some none
        | some (some (.csv c)) => some (some (c.Headers, c.ColumnTypes))
        | some _ => none
      (match fromEnv with
       | none => none
       | some envHT =>
         let headersTypes : Option (List String × List ColumnType) :=
           match envHT with
           | some (hs, ts) => if hs.length ≠ rowLength then none else some (hs, ts)
           | none => some (genHeaders rowLength, firstRow.map InferType)
         match headersTypes with
         | none => some none
         | some (headers, columnTypes) =>
           match dedup2dLoop headers elems.length rowLength [] [] elems with
           | none => none
           | some none => some none
           | some (some uniqueRows) => some (some ⟨headers, columnTypes, uniqueRows⟩))
    | _ => some none

/-- The `unique` built-in.  Note the final `return nil`: an argument that
is neither a `CSV` nor an array produces the Go `nil` object, and the
2-D-array path's validation failures produce a typed-nil `*CSV` — neither
is a usable CSV value (both are modelled as the absent object). -/
def uniqueBuiltin (env : Env) (args : List (Option Obj)) : BuiltinRes :=
  if args.length ≠ 1 then
    some (some (.error ("wrong number of arguments: got=" ++ toString args.length ++ ", want=1")), env)
  else
    match args.getD 0 none with
    | none => none
    | some o =>
      match o with
      | .csv c => some (some (.csv (removeDuplicates c)), env)
      | .array elems =>
        (match removeDuplicatesFrom2dArray elems env with
         | none => none
         | some (some c) => some (some (.csv c), env)
         | some none => some (none, env))
      | _ => some (none, env)

/-- The row rewrite of the `fill_empty` built-in. -/
def fillEmptyCore (c : CSV) (fieldName fieldValue : String) : CSV :=
  ⟨c.Headers, c.ColumnTypes,
    c.Rows.map (fun row =>
      c.Headers.foldl (fun newRow header =>
        if header = fieldName ∧ Row.get row header = "" then Row.set newRow header fieldValue
        else Row.set newRow header (Row.get row header)) [])⟩

/-- The `fill_empty` built-in: replace empty cells of the named column and
overwrite the environment's `csv` binding with the modified table.
(`convertToString` receives `args[2].Inspect()`, already a string, so its
error branch is unreachable; `Inspect` on a `nil` argument panics.) -/
def fillEmptyBuiltin (env : Env) (args : List (Option Obj)) : BuiltinRes :=
  if args.length ≠ 3 then
    some (some (.error ("wrong number of arguments: got=" ++ toString args.length ++ ", want=3")), env)
  else
    match args.getD 0 none with
    | none => none
    | some (.csv c) =>
      (match (args.getD 2 none).bind Obj.inspect with
       | none => none
       | some fieldValue =>
         match (args.getD 1 none).bind Obj.inspect with
         | none => none
         | some fieldName =>
           let modified := fillEmptyCore c fieldName fieldValue
           some (some (.csv modified), env.set "csv" (some (.csv modified))))
    | some o => some (some (.error ("argument must be CSV, got " ++ o.type)), env)

/-! ## Token module (`token` package) and lexer (`lexer/lexer.go`)

Go strings are byte slices; the model works on the character list of the
input, which coincides with bytes on ASCII source text. -/

namespace token

abbrev TokenType := String

def ILLEGAL : TokenType := "ILLEGAL"
def EOF : TokenType := "EOF"
def IDENT : TokenType := "IDENT"
def INT : TokenType := "INT"
def STRING : TokenType := "STRING"
def ASSIGN : TokenType := "="
def PLUS : TokenType := "+"
def MINUS : TokenType := "-"
def BANG : TokenType := "!"
def ASTERISK : TokenType := "*"
def SLASH : TokenType := "/"
def LT : TokenType := "<"
def GT : TokenType := ">"
def EQ : TokenType := "=="
def NOT_EQ : TokenType := "!="
def COMMA : TokenType := ","
def SEMICOLON : TokenType := ";"
def LPAREN : TokenType := "("
def RPAREN : TokenType := ")"
def LBRACE : TokenType := "\x7b"
def RBRACE : TokenType := "\x7d"
def LBRACKET : TokenType := "["
def RBRACKET : TokenType := "]"
def SINGLE_LINE_COMMENT : TokenType := "#"
def LOAD : TokenType := "LOAD"
def READ : TokenType := "READ"
def UPDATE : TokenType := "UPDATE"
def DELETE : TokenType := "DELETE"
def FUNCTION : TokenType := "FUNCTION"
def LET : TokenType := "LET"
def TRUE : TokenType := "TRUE"
def FALSE : TokenType := "FALSE"
def IF : TokenType := "IF"
def FOR : TokenType := "FOR"
def IN : TokenType := "IN"
def ELSE : TokenType := "ELSE"
def RETURN : TokenType := "RETURN"
def SAVE : TokenType := "SAVE"
def AS : TokenType := "AS"
def ROW : TokenType := "ROW"
def COL : TokenType := "COL"
def WHERE : TokenType := "WHERE"

/-- Modelled from the spec: `lexer.go` references `token.NEWLINE`, a
constant absent from the token source in this snapshot (the spec says a
newline simply separates statements); its value follows the naming pattern
of the other kinds. -/
def NEWLINE : TokenType := "NEWLINE"

/-- `token.Token`: exactly two fields, a kind and a literal. -/
structure Token where
  type : TokenType
  Literal : String
deriving DecidableEq, Repr

/-- The reserved-keyword table. -/
def keywords : List (String × TokenType) :=
  [("load", LOAD), ("read", READ), ("update", UPDATE), ("delete", DELETE),
   ("row", ROW), ("col", COL), ("where", "WHERE"), ("fn", FUNCTION),
   ("let", LET), ("true", TRUE), ("false", FALSE), ("if", IF), ("else", ELSE),
   ("return", RETURN), ("save", SAVE), ("as", AS), ("for", FOR), ("in", IN)]

/-- `strings.ToLower` restricted to ASCII (keywords are ASCII). -/
def goToLower (s : String) : String :=
  String.mk (s.data.map (fun c =>
    if 'A' ≤ c ∧ c ≤ 'Z' then Char.ofNat (c.toNat + 32) else c))

/-- `token.LookupIdent`: case-insensitive keyword lookup, defaulting to
`IDENT`. -/
def LookupIdent (ident : String) : TokenType :=
  match keywords.lookup (goToLower ident) with
  | some tok => tok
  | none => IDENT

end token

/-- `lexer.Lexer`: the cursor state plus the line/column counters (note the
counters live HERE, not on the tokens). -/
structure Lexer where
  input : List Char
  position : Nat
  readPosition : Nat
  ch : Char
  Line : Nat
  Column : Nat
deriving DecidableEq, Repr

/-- The NUL byte the lexer uses as its end-of-input sentinel. -/
def charNul : Char := Char.ofNat 0

/-- `readChar`: advance the cursor and update line/column. -/
def Lexer.readChar (l : Lexer) : Lexer :=
  let c := if l.readPosition ≥ l.input.length then charNul
           else l.input.getD l.readPosition charNul
  let l₁ := { l with ch := c, position := l.readPosition, readPosition := l.readPosition + 1 }
  if c = '\n' then { l₁ with Line := l₁.Line + 1, Column := 1 }
  else { l₁ with Column := l₁.Column + 1 }

/-- `lexer.New`. -/
def Lexer.new (input : String) : Lexer :=
  Lexer.readChar ⟨input.data, 0, 0, charNul, 1, 1⟩

/-- `peekChar`. -/
def Lexer.peekChar (l : Lexer) : Char :=
  if l.readPosition ≥ l.input.length then charNul
  else l.input.getD l.readPosition charNul

/-- `isLetter`: letters, underscore, dot and slash (so bare filenames lex
as one identifier). -/
def isLetter (ch : Char) : Bool :=
  ('a' ≤ ch ∧ ch ≤ 'z') ∨ ('A' ≤ ch ∧ ch ≤ 'Z') ∨ ch = '_' ∨ ch = '.' ∨ ch = '/'

/-- `isDigit`. -/
def isDigit (ch : Char) : Bool :=
  '0' ≤ ch ∧ ch ≤ '9'

/-! The lexer's loops advance `readPosition` at every step and stop no
later than one step past the end of the input, so running them on
`input.length + 1` fuel reproduces each Go loop exactly. -/

def skipWhitespaceF : Nat → Lexer → Lexer
  | 0, l => l
  | fuel + 1, l =>
    if l.ch = ' ' ∨ l.ch = '\t' ∨ l.ch = '\r' then skipWhitespaceF fuel l.readChar else l

/-- `skipWhitespace`: space, tab and CR (not newline). -/
def Lexer.skipWhitespace (l : Lexer) : Lexer :=
  skipWhitespaceF (l.input.length + 1) l

def readIdentifierF : Nat → Lexer → Lexer
  | 0, l => l
  | fuel + 1, l => if isLetter l.ch then readIdentifierF fuel l.readChar else l

/-- `readIdentifier`: the consumed substring `input[position:l.position]`
and the advanced lexer. -/
def Lexer.readIdentifier (l : Lexer) : String × Lexer :=
  let l₁ := readIdentifierF (l.input.length + 1) l
  (String.mk ((l.input.drop l.position).take (l₁.position - l.position)), l₁)

def readNumberF : Nat → Lexer → Lexer
  | 0, l => l
  | fuel + 1, l => if isDigit l.ch then readNumberF fuel l.readChar else l

/-- `readNumber`. -/
def Lexer.readNumber (l : Lexer) : String × Lexer :=
  let l₁ := readNumberF (l.input.length + 1) l
  (String.mk ((l.input.drop l.position).take (l₁.position - l.position)), l₁)

def readStringF : Nat → Lexer → Lexer
  | 0, l => l
  | fuel + 1, l =>
    let l₁ := l.readChar
    if l₁.ch = '"' ∨ l₁.ch = charNul ∨ l₁.ch = '\n' then l₁ else readStringF fuel l₁

/-- `readString`: the literal between the opening quote and the closing
quote / newline / end of input. -/
def Lexer.readStringLit (l : Lexer) : String × Lexer :=
  let start := l.position + 1
  let l₁ := readStringF (l.input.length + 1) l
  (String.mk ((l.input.drop start).take (l₁.position - start)), l₁)

/-- `strings.Trim(s, " ")`. -/
def trimSpaces (s : String) : String :=
  String.mk (((s.data.dropWhile (· = ' ')).reverse.dropWhile (· = ' ')).reverse)

def readCommentF : Nat → Lexer → Lexer
  | 0, l => l
  | fuel + 1, l =>
    let l₁ := l.readChar
    if l₁.ch = charNul ∨ l₁.ch = '\n' then l₁ else readCommentF fuel l₁

/-- `readComment`: the trimmed text up to the end of the line, as a
`SINGLE_LINE_COMMENT` token. -/
def Lexer.readComment (l : Lexer) : token.Token × Lexer :=
  let start := l.position + 1
  let l₁ := readCommentF (l.input.length + 1) l
  (⟨token.SINGLE_LINE_COMMENT, trimSpaces (String.mk ((l.input.drop start).take (l₁.position - start)))⟩, l₁)

/-- `newToken`. -/
def newToken (tokenType : token.TokenType) (ch : Char) : token.Token :=
  ⟨tokenType, String.singleton ch⟩

/-- `NextToken`.  The identifier and number branches return early; every
other branch performs the final `readChar`. -/
def Lexer.nextToken (l₀ : Lexer) : token.Token × Lexer :=
  let l := l₀.skipWhitespace
  if l.ch = '#' then
    let (tok, l₁) := l.readComment
    (tok, l₁.readChar)
  else if l.ch = '=' then
    if l.peekChar = '=' then
      let ch := l.ch
      let l₁ := l.readChar
      (⟨token.EQ, String.singleton ch ++ String.singleton l₁.ch⟩, l₁.readChar)
    else (newToken token.ASSIGN l.ch, l.readChar)
  else if l.ch = '+' then (newToken token.PLUS l.ch, l.readChar)
  else if l.ch = '-' then (newToken token.MINUS l.ch, l.readChar)
  else if l.ch = '!' then
    if l.peekChar = '=' then
      let ch := l.ch
      let l₁ := l.readChar
      (⟨token.NOT_EQ, String.singleton ch ++ String.singleton l₁.ch⟩, l₁.readChar)
    else (newToken token.BANG l.ch, l.readChar)
  else if l.ch = '"' then
    let (s, l₁) := l.readStringLit
    (⟨token.STRING, s⟩, l₁.readChar)
  else if l.ch = '/' then (newToken token.SLASH l.ch, l.readChar)
  else if l.ch = '*' then (newToken token.ASTERISK l.ch, l.readChar)
  else if l.ch = '<' then (newToken token.LT l.ch, l.readChar)
  else if l.ch = '>' then (newToken token.GT l.ch, l.readChar)
  else if l.ch = ';' then (newToken token.SEMICOLON l.ch, l.readChar)
  else if l.ch = ',' then (newToken token.COMMA l.ch, l.readChar)
  else if l.ch = '(' then (newToken token.LPAREN l.ch, l.readChar)
  else if l.ch = ')' then (newToken token.RPAREN l.ch, l.readChar)
  else if l.ch = '\x7b' then (newToken token.LBRACE l.ch, l.readChar)
  else if l.ch = '\x7d' then (newToken token.RBRACE l.ch, l.readChar)
  else if l.ch = '[' then (newToken token.LBRACKET l.ch, l.readChar)
  else if l.ch = ']' then (newToken token.RBRACKET l.ch, l.readChar)
  else if l.ch = '\n' then
    let tok := newToken token.NEWLINE l.ch
    let l₁ := { l with Line := l.Line + 1, Column := 0 }
    (tok, l₁.readChar)
  else if l.ch = charNul then (⟨token.EOF, ""⟩, l.readChar)
  else if isLetter l.ch then
    let (ident, l₁) := l.readIdentifier
    (⟨token.LookupIdent ident, ident⟩, l₁)
  else if isDigit l.ch then
    let (num, l₁) := l.readNumber
    (⟨token.INT, num⟩, l₁)
  else (newToken token.ILLEGAL l.ch, l.readChar)

/-! # Theorems -/

/-- The empty top-level environment. -/
def env0 : Env := .mk [] none

/-- Referential identity never holds across distinct dynamic types. -/
theorem goRefEq_of_type_ne {l r : Obj} (h : l.type ≠ r.type) : goRefEq l r = false := by
  cases l <;> cases r <;>
    simp_all [goRefEq, Obj.type, NULL_OBJ, INTEGER_OBJ, STRING_OBJ, BOOLEAN_OBJ,
      RETURN_VALUE_OBJ, ERROR_OBJ, ARRAY, CSV_OBJ, BUILTIN_OBJ]

/-- C1 (amended): for infix operands of different types (hence not both
Integers), every operator other than `==` and `!=` yields
`Error("type mismatch: <L> <op> <R>")`; `==` and `!=` compare referential
identity, which across distinct types is always false — so `==` yields the
Boolean `false` and `!=` yields `true`, never a type-mismatch error. -/
theorem C1_mixed_type_operators : ∀ (op : String) (l r : Obj), l.type ≠ r.type →
    (op ≠ "==" → op ≠ "!=" →
      evalInfixExpression op (some l) (some r) =
        some (.error ("type mismatch: " ++ l.type ++ " " ++ op ++ " " ++ r.type)))
    ∧ evalInfixExpression "==" (some l) (some r) = some (.boolean false)
    ∧ evalInfixExpression "!=" (some l) (some r) = some (.boolean true) := by
  intro op l r h
  have hint : ¬ (l.type = INTEGER_OBJ ∧ r.type = INTEGER_OBJ) := by
    rintro ⟨h1, h2⟩
    exact h (h1.trans h2.symm)
  have hg := goRefEq_of_type_ne h
  refine ⟨fun hne hne2 => ?_, ?_, ?_⟩
  · simp [evalInfixExpression, hint, hne, hne2, h]
  · simp [evalInfixExpression, hint, hg, nativeBoolToBooleanObject]
  · simp [evalInfixExpression, hint, hg, nativeBoolToBooleanObject]

/-- C1 (counterexample): an Integer compared to a Boolean with `==` (or
`!=`) evaluates to a Boolean — the referential comparison — and not to the
type-mismatch error the claim asserts. -/
theorem C1_counterexample :
    evalInfixExpression "==" (some (.integer 5)) (some (.boolean true)) = some (.boolean false)
    ∧ evalInfixExpression "!=" (some (.integer 5)) (some (.boolean true)) = some (.boolean true) :=
  ⟨rfl, rfl⟩

/-- C1 witness: `5 + true` is the type-mismatch error. -/
theorem C1_witness :
    Obj.type (.integer 5) ≠ Obj.type (.boolean true)
    ∧ evalInfixExpression "+" (some (.integer 5)) (some (.boolean true)) =
        some (.error "type mismatch: INTEGER + BOOLEAN") :=
  ⟨by decide, (C1_mixed_type_operators "+" (.integer 5) (.boolean true) (by decide)).1
    (by decide) (by decide)⟩

/-- C2 (amended): an `Error` produced by an operand short-circuits the
enclosing infix expression, an `Error` result of a statement stops the
enclosing block and the program (later statements are not evaluated and
the same `Error` is the result) — but a for-loop DISCARDS its body's
result: whenever the iterable evaluates to an array, the loop returns
`NULL` (or panics), never an `Error` from its body. -/
theorem C2_error_propagation :
    (∀ (fuel : Nat) (op : String) (a b : Expr) (env envE : Env) (m : String),
      evalExpr fuel a env = some (some (.error m), envE) →
      evalExpr (fuel + 1) (.infixE op a b) env = some (some (.error m), envE))
    ∧ (∀ (fuel : Nat) (op : String) (a b : Expr) (env env₁ envE : Env) (va : Option Obj)
        (m : String),
      evalExpr fuel a env = some (va, env₁) → isError va = false →
      evalExpr fuel b env₁ = some (some (.error m), envE) →
      evalExpr (fuel + 1) (.infixE op a b) env = some (some (.error m), envE))
    ∧ (∀ (fuel : Nat) (s : Stmt) (rest : List Stmt) (env envE : Env) (m : String),
      evalStmt fuel s env = some (some (.error m), envE) →
      evalBlockStatement (fuel + 1) (s :: rest) env = some (some (.error m), envE))
    ∧ (∀ (fuel : Nat) (s : Stmt) (rest : List Stmt) (env envE : Env) (m : String),
      evalStmt fuel s env = some (some (.error m), envE) →
      evalProgram (fuel + 1) (s :: rest) env = some (some (.error m), envE))
    ∧ (∀ (fuel : Nat) (iname ename : String) (iterable : Expr) (body : List Stmt)
        (env env₁ : Env) (elements : List (Option Obj)),
      evalExpr fuel iterable env = some (some (.array elements), env₁) →
      evalForLoopStatement (fuel + 1) iname ename iterable body env = none
      ∨ ∃ env₂, evalForLoopStatement (fuel + 1) iname ename iterable body env =
          some (some Obj.null, env₂)) := by
  refine ⟨?_, ?_, ?_, ?_, ?_⟩
  · intro fuel op a b env envE m h
    simp [evalExpr, h, isError, Obj.type, ERROR_OBJ]
  · intro fuel op a b env env₁ envE va m h1 hva h2
    have he : isError (some (Obj.error m)) = true := rfl
    simp [evalExpr, h1, hva, h2, he]
  · intro fuel s rest env envE m h
    simp [evalBlockStatement, h, Obj.type, ERROR_OBJ]
  · intro fuel s rest env envE m h
    simp [evalProgram, h]
  · intro fuel iname ename iterable body env env₁ elements h
    cases hit : forLoopIter fuel iname ename elements elements 0 body env₁ with
    | none =>
      left
      simp [evalForLoopStatement, h, isError, Obj.type, ERROR_OBJ, ARRAY, hit]
    | some p =>
      right
      exact ⟨p.2, by simp [evalForLoopStatement, h, isError, Obj.type, ERROR_OBJ, ARRAY, hit]⟩

/-- C2 (counterexample): the statement `foobar` alone makes the program
stop with `identifier not found: foobar`; the same statement as a for-loop
body is silently discarded — the loop returns `NULL` and the NEXT
statement still runs, so the program's result is `7`, not the error. -/
theorem C2_counterexample :
    evalProgram 20 [.exprStmt (.ident "foobar")] env0 =
      some (some (.error "identifier not found: foobar"), env0)
    ∧ evalProgram 20
        [.forStmt "i" "x" (.arrayLit [.integerLit 1]) [.exprStmt (.ident "foobar")],
         .exprStmt (.integerLit 7)] env0 =
      some (some (.integer 7), env0) :=
  ⟨rfl, rfl⟩

/-- C2 witness: the propagation facts at a concrete erroring statement. -/
theorem C2_witness :
    evalBlockStatement 6 [.exprStmt (.ident "foobar"), .exprStmt (.integerLit 7)] env0 =
      some (some (.error "identifier not found: foobar"), env0)
    ∧ evalProgram 6 [.exprStmt (.ident "foobar"), .exprStmt (.integerLit 7)] env0 =
      some (some (.error "identifier not found: foobar"), env0)
    ∧ (evalForLoopStatement 6 "i" "x" (.arrayLit [.integerLit 1])
        [.exprStmt (.ident "foobar")] env0 = none
       ∨ ∃ env₂, evalForLoopStatement 6 "i" "x" (.arrayLit [.integerLit 1])
          [.exprStmt (.ident "foobar")] env0 = some (some Obj.null, env₂)) :=
  ⟨C2_error_propagation.2.2.1 5 _ _ _ _ _ rfl,
   C2_error_propagation.2.2.2.1 5 _ _ _ _ _ rfl,
   C2_error_propagation.2.2.2.2 5 "i" "x" _ _ _ env0 [some (.integer 1)] rfl⟩

/-- C5: for an Integer index `i` outside `[0, len)`, the array index READ
returns the `NULL` object while the index WRITE returns
`Error("array index out of bounds: <i>")` and leaves the array exactly as
it was (the bounds check precedes the mutation). -/
theorem C5_array_oob : ∀ (elements : List (Option Obj)) (i : Int) (v : Obj),
    (i < 0 ∨ (elements.length : Int) ≤ i) →
    evalArrayIndexExpression (.array elements) (.integer i) = some (some .null)
    ∧ evalIndexAssignmentChecks (.array elements) (.integer i) v =
        (.error ("array index out of bounds: " ++ toString i), .array elements) := by
  intro elements i v h
  constructor
  · have hc : i < 0 ∨ i > (elements.length : Int) - 1 := by omega
    simp [evalArrayIndexExpression, hc]
  · have hc : i < 0 ∨ i ≥ (elements.length : Int) := by omega
    simp [evalIndexAssignmentChecks, hc]

/-- C5 witness: index 5 of a one-element array. -/
theorem C5_witness :
    ((5 : Int) < 0 ∨ (([some (Obj.integer 1)] : List (Option Obj)).length : Int) ≤ 5)
    ∧ evalArrayIndexExpression (.array [some (.integer 1)]) (.integer 5) = some (some .null)
    ∧ evalIndexAssignmentChecks (.array [some (.integer 1)]) (.integer 5) (.integer 9) =
        (.error "array index out of bounds: 5", .array [some (.integer 1)]) :=
  ⟨by decide,
   (C5_array_oob [some (.integer 1)] 5 (.integer 9) (by decide)).1,
   (C5_array_oob [some (.integer 1)] 5 (.integer 9) (by decide)).2⟩

/-- C9: integer division performs the host division with no zero check:
with a non-zero divisor the result is the Integer holding the truncated
(two's-complement 64-bit) quotient; with divisor `0` the evaluation is
undefined (a Go panic) — in particular no `Error` value is ever produced,
so a non-zero divisor is a required precondition. -/
theorem C9_division_unguarded : ∀ a b : Int,
    (b ≠ 0 → evalIntegerInfixExpression "/" (.integer a) (.integer b) =
      some (.integer (int64wrap (Int.tdiv a b))))
    ∧ evalIntegerInfixExpression "/" (.integer a) (.integer 0) = none := by
  intro a b
  constructor
  · intro hb
    simp [evalIntegerInfixExpression, hb]
  · simp [evalIntegerInfixExpression]

/-- C9 witness: `7 / 2 = 3` and `7 / 0` is the undefined (panicking)
result, not an `Error`. -/
theorem C9_witness :
    (2 : Int) ≠ 0
    ∧ evalIntegerInfixExpression "/" (.integer 7) (.integer 2) =
        some (.integer (int64wrap (Int.tdiv 7 2)))
    ∧ evalIntegerInfixExpression "/" (.integer 7) (.integer 0) = none :=
  ⟨by decide, (C9_division_unguarded 7 2).1 (by decide), (C9_division_unguarded 7 0).2⟩

/-- C10: with no `csv` binding in scope, or with `csv` bound to a non-CSV
value, a read statement/expression evaluates to the absent value — the Go
`nil` interface (`none` here), which is neither a `CSV`, nor `NULL`, nor
an `Error` object. -/
theorem C10_read_without_csv : ∀ (fuel : Nat) (loc : Location) (env : Env),
    (env.get "csv" = none →
      evalReadStatement (fuel + 1) loc env = some (none, env)
      ∧ evalExpr (fuel + 2) (.readE loc) env = some (none, env)
      ∧ evalStmt (fuel + 2) (.readStmt loc) env = some (none, env))
    ∧ (∀ v, env.get "csv" = some v → (∀ c, v ≠ some (.csv c)) →
      evalReadStatement (fuel + 1) loc env = some (none, env)) := by
  intro fuel loc env
  constructor
  · intro h
    refine ⟨?_, ?_, ?_⟩ <;> simp [evalExpr, evalStmt, evalReadStatement, h]
  · intro v hv hnc
    cases v with
    | none => simp [evalReadStatement, hv]
    | some o =>
      cases o with
      | csv c => exact absurd rfl (hnc c)
      | _ => simp [evalReadStatement, hv]

/-- C10 witness: a read in the empty environment. -/
theorem C10_witness :
    env0.get "csv" = none
    ∧ evalReadStatement 1 (.mk (-2) "" none) env0 = some (none, env0)
    ∧ evalExpr 2 (.readE (.mk (-2) "" none)) env0 = some (none, env0) :=
  ⟨rfl, ((C10_read_without_csv 0 (.mk (-2) "" none) env0).1 rfl).1,
   ((C10_read_without_csv 0 (.mk (-2) "" none) env0).1 rfl).2.1⟩

/-! Filter lemmas for C3/C4: a literal filter value evaluates without
touching the environment, so the condition is a pure per-row predicate. -/

theorem evalCond_intLit (g : Nat) (row : Row) (col op : String) (n : Int) (env : Env) :
    evaluateCondition (g + 2) row (.mk col op (.integerLit n)) env =
      some (evaluateNumericCondition (Row.get row col) op n, env) := by
  simp [evaluateCondition, evalExpr, Filter.columnName, Filter.operator, Filter.value,
    isError, Obj.type, INTEGER_OBJ, ERROR_OBJ]

theorem evalCond_strLit (g : Nat) (row : Row) (col op : String) (s : String) (env : Env) :
    evaluateCondition (g + 2) row (.mk col op (.stringLit s)) env =
      some (evaluateStringCondition (Row.get row col) op s, env) := by
  simp [evaluateCondition, evalExpr, Filter.columnName, Filter.operator, Filter.value,
    isError, Obj.type, STRING_OBJ, ERROR_OBJ]

theorem evalCond_boolLit (g : Nat) (row : Row) (col op : String) (b : Bool) (env : Env) :
    evaluateCondition (g + 2) row (.mk col op (.booleanLit b)) env =
      some (evaluateBooleanCondition (Row.get row col) op b, env) := by
  simp [evaluateCondition, evalExpr, Filter.columnName, Filter.operator, Filter.value,
    nativeBoolToBooleanObject, isError, Obj.type, BOOLEAN_OBJ, ERROR_OBJ]

/-- `filterRows` with a condition that is a pure per-row predicate is
`List.filter`, and it leaves the environment unchanged. -/
theorem filterRows_of_pure (f : Filter) (pred : Row → Bool)
    (hcond : ∀ (g : Nat) (row : Row) (env' : Env),
      evaluateCondition (g + 2) row f env' = some (pred row, env')) :
    ∀ (rows : List Row) (fuel : Nat) (env : Env), rows.length + 2 ≤ fuel →
    filterRows fuel rows f env = some (rows.filter pred, env) := by
  intro rows
  induction rows with
  | nil =>
    intro fuel env hf
    obtain ⟨k, rfl⟩ : ∃ k, fuel = k + 1 := ⟨fuel - 1, by omega⟩
    simp [filterRows]
  | cons row rest ih =>
    intro fuel env hf
    obtain ⟨k, rfl⟩ : ∃ k, fuel = k + 1 := ⟨fuel - 1, by omega⟩
    obtain ⟨g, rfl⟩ : ∃ g, k = g + 2 := ⟨k - 2, by simp at hf; omega⟩
    have hrest : rest.length + 2 ≤ g + 2 := by simp at hf; omega
    simp [filterRows, hcond g row env, ih (g + 2) env hrest, List.filter_cons]

/-- C4: row retention under a `where` filter is decided by the type of the
evaluated filter value.  An Integer value keeps exactly the rows whose
cell parses as a decimal integer and satisfies the comparison (`<, >, <=,
>=, ==, !=`, anything else never holds); a String value compares the raw
cell lexicographically; a Boolean value can only hold under `==`/`!=`
against the parsed cell; and a cell that fails to parse (integer or
boolean case) always fails the predicate. -/
theorem C4_filter_semantics :
    (∀ (rows : List Row) (fuel : Nat) (col op : String) (n : Int) (env : Env),
      rows.length + 2 ≤ fuel →
      filterRows fuel rows (.mk col op (.integerLit n)) env =
        some (rows.filter (fun row => evaluateNumericCondition (Row.get row col) op n), env))
    ∧ (∀ (rows : List Row) (fuel : Nat) (col op s : String) (env : Env),
      rows.length + 2 ≤ fuel →
      filterRows fuel rows (.mk col op (.stringLit s)) env =
        some (rows.filter (fun row => evaluateStringCondition (Row.get row col) op s), env))
    ∧ (∀ (rows : List Row) (fuel : Nat) (col op : String) (b : Bool) (env : Env),
      rows.length + 2 ≤ fuel →
      filterRows fuel rows (.mk col op (.booleanLit b)) env =
        some (rows.filter (fun row => evaluateBooleanCondition (Row.get row col) op b), env))
    ∧ (∀ (cell op : String) (n : Int), goParseInt64 cell = none →
        evaluateNumericCondition cell op n = false)
    ∧ (∀ (cell op : String) (b : Bool), goParseBool cell = none →
        evaluateBooleanCondition cell op b = false)
    ∧ (∀ (cell : String) (n v : Int), goParseInt64 cell = some v →
        evaluateNumericCondition cell "<" n = decide (v < n)
        ∧ evaluateNumericCondition cell ">" n = decide (v > n)
        ∧ evaluateNumericCondition cell "<=" n = decide (v ≤ n)
        ∧ evaluateNumericCondition cell ">=" n = decide (v ≥ n)
        ∧ evaluateNumericCondition cell "==" n = decide (v = n)
        ∧ evaluateNumericCondition cell "!=" n = decide (v ≠ n))
    ∧ (∀ (cell : String) (b bv : Bool), goParseBool cell = some bv →
        evaluateBooleanCondition cell "==" b = decide (bv = b)
        ∧ evaluateBooleanCondition cell "!=" b = decide (bv ≠ b)
        ∧ (∀ op, op ≠ "==" → op ≠ "!=" → evaluateBooleanCondition cell op b = false))
    ∧ (∀ (cell s : String),
        evaluateStringCondition cell "<" s = decide (cell < s)
        ∧ evaluateStringCondition cell ">" s = decide (s < cell)
        ∧ evaluateStringCondition cell "==" s = decide (cell = s)
        ∧ evaluateStringCondition cell "!=" s = decide (cell ≠ s)) := by
  refine ⟨?_, ?_, ?_, ?_, ?_, ?_, ?_, ?_⟩
  · intro rows fuel col op n env hf
    exact filterRows_of_pure _ _ (fun g row env' => evalCond_intLit g row col op n env') rows fuel env hf
  · intro rows fuel col op s env hf
    exact filterRows_of_pure _ _ (fun g row env' => evalCond_strLit g row col op s env') rows fuel env hf
  · intro rows fuel col op b env hf
    exact filterRows_of_pure _ _ (fun g row env' => evalCond_boolLit g row col op b env') rows fuel env hf
  · intro cell op n h
    simp [evaluateNumericCondition, h]
  · intro cell op b h
    simp [evaluateBooleanCondition, h]
  · intro cell n v h
    refine ⟨?_, ?_, ?_, ?_, ?_, ?_⟩ <;> simp [evaluateNumericCondition, h]
  · intro cell b bv h
    refine ⟨?_, ?_, ?_⟩
    · simp [evaluateBooleanCondition, h]
    · simp [evaluateBooleanCondition, h]
    · intro op h1 h2
      unfold evaluateBooleanCondition
      rw [h]
      split <;> simp_all
  · intro cell s
    refine ⟨?_, ?_, ?_, ?_⟩ <;> simp [evaluateStringCondition, goStringLt]

/-- C4 witness: a concrete filtered table — `age > 27` keeps Alice (30),
drops Bob (25) and drops an unparsable cell. -/
theorem C4_witness :
    (([[("age", "30")], [("age", "25")], [("age", "x")]] : List Row).length + 2 ≤ 9)
    ∧ filterRows 9 [[("age", "30")], [("age", "25")], [("age", "x")]]
        (.mk "age" ">" (.integerLit 27)) env0 = some ([[("age", "30")]], env0)
    ∧ goParseInt64 "x" = none
    ∧ evaluateNumericCondition "x" ">" 27 = false := by
  refine ⟨by decide, ?_, rfl, C4_filter_semantics.2.2.2.1 "x" ">" 27 rfl⟩
  have h := C4_filter_semantics.1 [[("age", "30")], [("age", "25")], [("age", "x")]] 9
    "age" ">" 27 env0 (by decide)
  simpa using h

/-- C3 (amended): a `read` with no column projection, evaluated with `csv`
bound to a table `c`, returns a NEW CSV whose Rows are the selected
(`ALL` / valid singleton / empty when out of range) and then filtered
rows and whose Headers and ColumnTypes are exactly `c`'s; when the
filter is absent or its value is a literal — the shape the read grammar
produces — the environment is returned unchanged, so `csv` still refers
to `c`.  (A filter value expression that writes the environment can
overwrite `csv` mid-read; see the counterexample.) -/
theorem C3_read_frame : ∀ (fuel : Nat) (loc : Location) (env : Env) (c : CSV),
    env.get "csv" = some (some (.csv c)) →
    loc.colIndex = "" →
    (loc.filter = none →
      evalReadStatement (fuel + 1) loc env =
        some (some (.csv ⟨c.Headers, c.ColumnTypes, selectRows c.Rows loc.rowIndex⟩), env))
    ∧ (∀ (col op : String) (n : Int),
        loc.filter = some (.mk col op (.integerLit n)) →
        (selectRows c.Rows loc.rowIndex).length + 2 ≤ fuel →
        evalReadStatement (fuel + 1) loc env =
          some (some (.csv ⟨c.Headers, c.ColumnTypes,
            (selectRows c.Rows loc.rowIndex).filter
              (fun row => evaluateNumericCondition (Row.get row col) op n)⟩), env))
    ∧ (∀ (col op s : String),
        loc.filter = some (.mk col op (.stringLit s)) →
        (selectRows c.Rows loc.rowIndex).length + 2 ≤ fuel →
        evalReadStatement (fuel + 1) loc env =
          some (some (.csv ⟨c.Headers, c.ColumnTypes,
            (selectRows c.Rows loc.rowIndex).filter
              (fun row => evaluateStringCondition (Row.get row col) op s)⟩), env))
    ∧ (∀ (col op : String) (b : Bool),
        loc.filter = some (.mk col op (.booleanLit b)) →
        (selectRows c.Rows loc.rowIndex).length + 2 ≤ fuel →
        evalReadStatement (fuel + 1) loc env =
          some (some (.csv ⟨c.Headers, c.ColumnTypes,
            (selectRows c.Rows loc.rowIndex).filter
              (fun row => evaluateBooleanCondition (Row.get row col) op b)⟩), env))
    ∧ ((loc.rowIndex = -2 → selectRows c.Rows loc.rowIndex = c.Rows)
      ∧ (∀ k : Nat, loc.rowIndex = (k : Int) → k < c.Rows.length →
          selectRows c.Rows loc.rowIndex = [c.Rows.getD k []])
      ∧ (loc.rowIndex ≠ -2 → (loc.rowIndex < 0 ∨ (c.Rows.length : Int) ≤ loc.rowIndex) →
          selectRows c.Rows loc.rowIndex = [])) := by
  intro fuel loc env c hcsv hcol
  obtain ⟨ri, ci, fi⟩ := loc
  simp only [Location.colIndex] at hcol
  subst hcol
  refine ⟨?_, ?_, ?_, ?_, ?_, ?_, ?_⟩
  · intro hf
    simp only [Location.filter] at hf
    subst hf
    simp [evalReadStatement, hcsv, Location.rowIndex, Location.colIndex, Location.filter]
  · intro col op n hf hfl
    simp only [Location.filter] at hf
    subst hf
    have hrows := filterRows_of_pure _ _ (fun g row env' => evalCond_intLit g row col op n env')
      (selectRows c.Rows ri) fuel env hfl
    simp [evalReadStatement, hcsv, Location.rowIndex, Location.colIndex, Location.filter, hrows]
  · intro col op s hf hfl
    simp only [Location.filter] at hf
    subst hf
    have hrows := filterRows_of_pure _ _ (fun g row env' => evalCond_strLit g row col op s env')
      (selectRows c.Rows ri) fuel env hfl
    simp [evalReadStatement, hcsv, Location.rowIndex, Location.colIndex, Location.filter, hrows]
  · intro col op b hf hfl
    simp only [Location.filter] at hf
    subst hf
    have hrows := filterRows_of_pure _ _ (fun g row env' => evalCond_boolLit g row col op b env')
      (selectRows c.Rows ri) fuel env hfl
    simp [evalReadStatement, hcsv, Location.rowIndex, Location.colIndex, Location.filter, hrows]
  · intro h
    simp only [Location.rowIndex] at *
    subst h
    simp [selectRows]
  · intro k hk hlt
    simp only [Location.rowIndex] at *
    subst hk
    have h2 : ¬ ((k : Int) = -2) := by omega
    have h3 : ¬ ((k : Int) ≥ (c.Rows.length : Int) ∨ (k : Int) < 0) := by push_neg; omega
    simp [selectRows, h2, h3, hlt]
  · intro hne hoob
    simp only [Location.rowIndex] at *
    have h3 : ri ≥ (c.Rows.length : Int) ∨ ri < 0 := by omega
    simp [selectRows, hne, h3]

/-- The one-row table used by the C3 counterexample. -/
def csvT : CSV := ⟨["age"], [⟨"age", INTEGER_OBJ⟩], [[("age", "30")]]⟩

/-- An environment whose `csv` binding holds `csvT`. -/
def envT : Env := .mk [("csv", some (.csv csvT))] none

/-- A read of all rows, no projection, whose filter value expression is
`0 + if (true) { let csv = 5; 2 }` — parseable by the read grammar (the
value starts with an `INT` token and is parsed as a full expression) and
overwriting `csv` when evaluated. -/
def locT : Location := .mk (-2) "" (some (.mk "age" "=="
  (.infixE "+" (.integerLit 0)
    (.ifE (.booleanLit true) [.letStmt "csv" (.integerLit 5), .exprStmt (.integerLit 2)] none))))

/-- C3 (counterexample): evaluating `locT` against `envT` still builds its
result from the captured table, but the filter's value expression rebinds
`csv` to the Integer `5` — after the read, `csv` no longer refers to the
same table, refuting the unconditional frame claim. -/
theorem C3_counterexample :
    envT.get "csv" = some (some (.csv csvT))
    ∧ evalReadStatement 20 locT envT =
        some (some (.csv ⟨["age"], [⟨"age", INTEGER_OBJ⟩], []⟩),
          Env.mk [("csv", some (.integer 5))] none)
    ∧ (Env.mk [("csv", some (.integer 5))] none).get "csv" ≠ some (some (.csv csvT)) :=
  ⟨rfl, rfl, by simp [Env.get, List.lookup]⟩

/-- C3 witness: an unfiltered read of `csvT` returns the table's contents
and leaves the environment untouched. -/
theorem C3_witness :
    envT.get "csv" = some (some (.csv csvT))
    ∧ evalReadStatement 1 (.mk (-2) "" none) envT =
        some (some (.csv ⟨csvT.Headers, csvT.ColumnTypes, selectRows csvT.Rows (-2)⟩), envT) :=
  ⟨rfl, (C3_read_frame 0 (.mk (-2) "" none) envT csvT rfl rfl).1 rfl⟩

/-! The C6 column-type invariant and its preservation lemmas. -/

/-- A column type entry is one of the three scalar kinds. -/
def dtOK (ct : ColumnType) : Prop :=
  ct.DataType = INTEGER_OBJ ∨ ct.DataType = STRING_OBJ ∨ ct.DataType = BOOLEAN_OBJ

instance (ct : ColumnType) : Decidable (dtOK ct) := by
  unfold dtOK; infer_instance

/-- The claimed CSV invariant: as many column types as headers, each with
a scalar data type. -/
def csvInv (c : CSV) : Prop :=
  c.ColumnTypes.length = c.Headers.length ∧ ∀ ct ∈ c.ColumnTypes, dtOK ct

instance (c : CSV) : Decidable (csvInv c) := by
  unfold csvInv; infer_instance

/-- Every table stored under `csv` in the environment satisfies the
invariant. -/
def envCsvInv (env : Env) : Prop :=
  ∀ c, env.get "csv" = some (some (.csv c)) → csvInv c

theorem InferType_dtOK (o : Option Obj) : dtOK (InferType o) := by
  cases o with
  | none => simp [InferType, dtOK]
  | some x => cases x <;> simp [InferType, dtOK]

theorem head?_mem {α : Type} {l : List α} {a : α} (h : l.head? = some a) : a ∈ l := by
  cases l with
  | nil => simp at h
  | cons b t => simp at h; simp [h]

/-- Loading a file with at least one data row establishes the invariant. -/
theorem evalLoadCore_inv (headers : List String) (records : List (List String))
    (h : records ≠ []) : csvInv (evalLoadCore headers records) := by
  cases records with
  | nil => exact absurd rfl h
  | cons r rs =>
    refine ⟨by simp [evalLoadCore, CSV.InferColumnTypes], ?_⟩
    intro ct hct
    simp [evalLoadCore, CSV.InferColumnTypes] at hct
    obtain ⟨header, _, hh⟩ := hct
    rw [← hh]
    unfold dtOK
    split <;> simp

/-- `read` preserves the invariant: a CSV result inherits the bound
table's headers and column types. -/
theorem evalReadStatement_inv (fuel : Nat) (loc : Location) (env envE : Env) (c out : CSV)
    (hcsv : env.get "csv" = some (some (.csv c))) (hinv : csvInv c)
    (hres : evalReadStatement fuel loc env = some (some (.csv out), envE)) : csvInv out := by
  obtain ⟨k, rfl⟩ : ∃ k, fuel = k + 1 := by
    cases fuel with
    | zero => simp [evalReadStatement] at hres
    | succ k => exact ⟨k, rfl⟩
  obtain ⟨ri, ci, fi⟩ := loc
  simp only [evalReadStatement, hcsv, Location.rowIndex, Location.colIndex, Location.filter] at hres
  cases fi with
  | none =>
    by_cases hc : ci = ""
    · simp [hc] at hres
      obtain ⟨h1, -⟩ := hres
      exact ⟨by simp [← h1, hinv.1], by simp [← h1]; exact hinv.2⟩
    · simp [hc, extractColumns] at hres
  | some f =>
    cases hfr : filterRows k (selectRows c.Rows ri) f env with
    | none => simp [hfr] at hres
    | some p =>
      simp only [hfr, Option.some_bind] at hres
      by_cases hc : ci = ""
      · simp [hc] at hres
        obtain ⟨h1, -⟩ := hres
        exact ⟨by simp [← h1, hinv.1], by simp [← h1]; exact hinv.2⟩
      · simp [hc, extractColumns] at hres

/-- `removeDuplicates` preserves the invariant. -/
theorem removeDuplicates_inv (c : CSV) (hinv : csvInv c) : csvInv (removeDuplicates c) :=
  ⟨by simpa [removeDuplicates] using hinv.1, by simpa [removeDuplicates] using hinv.2⟩

/-- `fill_empty`'s rewrite preserves the invariant. -/
theorem fillEmptyCore_inv (c : CSV) (fn fv : String) (hinv : csvInv c) :
    csvInv (fillEmptyCore c fn fv) :=
  ⟨by simpa [fillEmptyCore] using hinv.1, by simpa [fillEmptyCore] using hinv.2⟩

/-- `mergeCSVs` preserves the target's invariant on success. -/
theorem mergeCSVs_inv (t s : CSV) (out : CSV) (hinv : csvInv t)
    (hres : mergeCSVs t s = some (.csv out)) : csvInv out := by
  unfold mergeCSVs at hres
  by_cases hl : s.Headers.length = t.Headers.length
  · simp [hl] at hres
    cases hchk : mergeCheckTypes t.Headers s.ColumnTypes 0 t.ColumnTypes with
    | none => simp [hchk] at hres
    | some o =>
      cases o with
      | none =>
        simp [hchk] at hres
        exact ⟨by simp [← hres, hinv.1], by simp [← hres]; exact hinv.2⟩
      | some msg => simp [hchk] at hres
  · simp [hl] at hres

theorem genHeaders_length (n : Nat) : (genHeaders n).length = n := by
  simp [genHeaders]

/-- The scalar `ToCSV` coercions produce invariant-satisfying tables. -/
theorem intToCSV_inv (i : Int) (env : Env) (out : CSV) (henv : envCsvInv env)
    (hres : intToCSV i env = some (.ok out)) : csvInv out := by
  unfold intToCSV at hres
  cases hget : env.get "csv" with
  | none =>
    rw [hget] at hres
    simp at hres
    simp [← hres, csvInv, dtOK]
  | some v =>
    rw [hget] at hres
    match v with
    | none => simp at hres
    | some (.csv cur) =>
      have hcur := henv cur hget
      simp only at hres
      split at hres
      · simp at hres
        simp [← hres, csvInv, dtOK]
      · split at hres
        · simp at hres
        · rename_i ct hhd
          split at hres
          · simp at hres
          · rename_i hv
            push_neg at hv
            split at hres
            · simp at hres
              simp [← hres, csvInv, dtOK]
            · simp at hres
              refine ⟨by simp [← hres], ?_⟩
              intro ct' hct'
              simp [← hres] at hct'
              subst hct'
              rcases hv with h | h
              · exact Or.inl h
              · exact Or.inr (Or.inl h)
    | some (.null) => simp at hres
    | some (.integer _) => simp at hres
    | some (.string _) => simp at hres
    | some (.boolean _) => simp at hres
    | some (.returnValue _) => simp at hres
    | some (.error _) => simp at hres
    | some (.array _) => simp at hres
    | some (.builtin _) => simp at hres

theorem stringToCSV_inv (s : String) (env : Env) (out : CSV) (henv : envCsvInv env)
    (hres : stringToCSV s env = some (.ok out)) : csvInv out := by
  unfold stringToCSV at hres
  cases hget : env.get "csv" with
  | none =>
    rw [hget] at hres
    simp at hres
    simp [← hres, csvInv, dtOK]
  | some v =>
    rw [hget] at hres
    match v with
    | none => simp at hres
    | some (.csv cur) =>
      have hcur := henv cur hget
      simp only at hres
      split at hres
      · simp at hres
        simp [← hres, csvInv, dtOK]
      · split at hres
        · simp at hres
        · rename_i ct hhd
          split at hres
          · simp at hres
            simp [← hres, csvInv, dtOK]
          · simp at hres
            refine ⟨by simp [← hres], ?_⟩
            intro ct' hct'
            simp [← hres] at hct'
            subst hct'
            exact hcur.2 _ (head?_mem hhd)
    | some (.null) => simp at hres
    | some (.integer _) => simp at hres
    | some (.string _) => simp at hres
    | some (.boolean _) => simp at hres
    | some (.returnValue _) => simp at hres
    | some (.error _) => simp at hres
    | some (.array _) => simp at hres
    | some (.builtin _) => simp at hres

theorem boolToCSV_inv (b : Bool) (env : Env) (out : CSV) (henv : envCsvInv env)
    (hres : boolToCSV b env = some (.ok out)) : csvInv out := by
  unfold boolToCSV at hres
  cases hget : env.get "csv" with
  | none =>
    rw [hget] at hres
    simp at hres
    simp [← hres, csvInv, dtOK]
  | some v =>
    rw [hget] at hres
    match v with
    | none => simp at hres
    | some (.csv cur) =>
      have hcur := henv cur hget
      simp only at hres
      split at hres
      · simp at hres
        simp [← hres, csvInv, dtOK]
      · split at hres
        · simp at hres
        · rename_i ct hhd
          split at hres
          · simp at hres
          · rename_i hv
            push_neg at hv
            split at hres
            · simp at hres
              simp [← hres, csvInv, dtOK]
            · simp at hres
              refine ⟨by simp [← hres], ?_⟩
              intro ct' hct'
              simp [← hres] at hct'
              subst hct'
              rcases hv with h | h
              · exact Or.inr (Or.inr h)
              · exact Or.inr (Or.inl h)
    | some (.null) => simp at hres
    | some (.integer _) => simp at hres
    | some (.string _) => simp at hres
    | some (.boolean _) => simp at hres
    | some (.returnValue _) => simp at hres
    | some (.error _) => simp at hres
    | some (.array _) => simp at hres
    | some (.builtin _) => simp at hres

theorem take_set_succ {α : Type} : ∀ (l : List α) (j : Nat) (v : α), j < l.length →
    (l.set j v).take (j + 1) = l.take j ++ [v] := by
  intro l
  induction l with
  | nil => intro j v h; simp at h
  | cons a t ih =>
    intro j v h
    cases j with
    | zero => simp
    | succ k =>
      simp only [List.set, List.take, List.cons_append, List.cons.injEq, true_and]
      exact ih k v (by simpa using h)

/-- A validating pass (existing types, or a non-first row) leaves the
column types unchanged. -/
theorem twoDRowElems_cts_validate (hs : List String) (ue fr : Bool) (ri : Nat)
    (hcase : ue = true ∨ fr = false) :
    ∀ (row : List (Option Obj)) (j : Nat) (cts : List ColumnType) (rm rm' : Row)
      (cts' : List ColumnType),
    twoDRowElems hs ue fr ri j row cts rm = some (.ok (rm', cts')) → cts' = cts := by
  intro row
  induction row with
  | nil =>
    intro j cts rm rm' cts' hres
    simp [twoDRowElems] at hres
    exact hres.2.symm
  | cons e rest ih =>
    intro j cts rm rm' cts' hres
    have hcond : (ue = true ∨ ¬ (fr = true)) := by
      rcases hcase with h | h <;> simp [h]
    simp only [twoDRowElems, hcond, if_true, eq_self_iff_true, if_pos] at hres
    rcases hget : cts.get? j with - | ct
    · rw [hget] at hres; simp at hres
    · rw [hget] at hres
      simp only at hres
      split at hres
      · simp at hres
      · simp at hres
      · rename_i cts₁ heq
        have hcts₁ : cts₁ = cts := by
          split at heq
          · simp at heq; exact heq.symm
          · split at heq <;> simp at heq
        rw [hcts₁] at hres
        cases hh : hs.get? j with
        | none => rw [hh] at hres; simp at hres
        | some h =>
          rw [hh] at hres
          cases e with
          | none => simp at hres
          | some eo =>
            cases hins : Obj.inspect eo with
            | none => simp [hins] at hres
            | some s =>
              simp only [hins, Option.some_bind] at hres
              exact ih (j + 1) cts (Row.set rm h s) rm' cts' hres

/-- The first-row inference pass replaces the column types from position
`j` on with the row's inferred types. -/
theorem twoDRowElems_cts_infer (hs : List String) (ri : Nat) :
    ∀ (row : List (Option Obj)) (j : Nat) (cts : List ColumnType) (rm rm' : Row)
      (cts' : List ColumnType),
    j + row.length = cts.length →
    twoDRowElems hs false true ri j row cts rm = some (.ok (rm', cts')) →
    cts' = cts.take j ++ row.map InferType := by
  intro row
  induction row with
  | nil =>
    intro j cts rm rm' cts' hlen hres
    simp [twoDRowElems] at hres
    rw [← hres.2]
    simp at hlen
    simp [hlen]
  | cons e rest ih =>
    intro j cts rm rm' cts' hlen hres
    simp only [twoDRowElems] at hres
    rw [if_neg (by simp)] at hres
    have hj : j < cts.length := by simp at hlen; omega
    rw [if_pos hj] at hres
    simp only at hres
    cases hh : hs.get? j with
    | none => rw [hh] at hres; simp at hres
    | some h =>
      rw [hh] at hres
      cases e with
      | none => simp at hres
      | some eo =>
        cases hins : Obj.inspect eo with
        | none => simp [hins] at hres
        | some s =>
          simp only [hins, Option.some_bind] at hres
          have hrec := ih (j + 1) (cts.set j (InferType (some eo))) (Row.set rm h s) rm' cts'
            (by simp at hlen ⊢; omega) hres
          rw [hrec, take_set_succ cts j _ hj]
          simp

/-- A build pass over non-first rows (or with existing types) leaves the
column types unchanged. -/
theorem twoDRowsBuild_cts_validate (hs : List String) (ue : Bool) :
    ∀ (elems : List (Option Obj)) (i : Nat) (cts : List ColumnType) (acc rows' : List Row)
      (cts' : List ColumnType),
    (ue = true ∨ 1 ≤ i) →
    twoDRowsBuild hs ue i elems cts acc = some (.ok (rows', cts')) → cts' = cts := by
  intro elems
  induction elems with
  | nil =>
    intro i cts acc rows' cts' hcase hres
    simp [twoDRowsBuild] at hres
    exact hres.2.symm
  | cons rowObj rest ih =>
    intro i cts acc rows' cts' hcase hres
    simp only [twoDRowsBuild] at hres
    cases rowObj with
    | none => simp at hres
    | some o =>
      cases o with
      | array rowElems =>
        simp only at hres
        have hfr : (ue = true ∨ (decide (i = 0)) = false) := by
          rcases hcase with h | h
          · exact Or.inl h
          · right; simp; omega
        cases hrow : twoDRowElems hs ue (decide (i = 0)) i 0 rowElems cts [] with
        | none => rw [hrow] at hres; simp at hres
        | some ex =>
          rw [hrow] at hres
          cases ex with
          | error m => simp at hres
          | ok p =>
            obtain ⟨rm, cts₁⟩ := p
            have h1 : cts₁ = cts := twoDRowElems_cts_validate hs ue _ i hfr rowElems 0 cts [] rm cts₁ hrow
            simp only at hres
            have := ih (i + 1) cts₁ (acc ++ [rm]) rows' cts' (Or.inr (by omega)) hres
            rw [this, h1]
      | null => simp at hres
      | integer v => simp at hres
      | string v => simp at hres
      | boolean v => simp at hres
      | returnValue v => simp at hres
      | error m => simp at hres
      | csv c => simp at hres
      | builtin n => simp at hres

/-- A generated-headers build infers the column types from the first row. -/
theorem twoDRowsBuild_cts_generated (hs : List String) (r0 rest : List (Option Obj))
    (cts0 : List ColumnType) (rows' : List Row) (cts' : List ColumnType)
    (hlen : r0.length = cts0.length)
    (hres : twoDRowsBuild hs false 0 (some (.array r0) :: rest) cts0 [] =
      some (.ok (rows', cts'))) :
    cts' = r0.map InferType := by
  simp only [twoDRowsBuild, decide_True] at hres
  cases hrow : twoDRowElems hs false true 0 0 r0 cts0 [] with
  | none => rw [hrow] at hres; simp at hres
  | some ex =>
    rw [hrow] at hres
    cases ex with
    | error m => simp at hres
    | ok p =>
      obtain ⟨rm, cts₁⟩ := p
      have h1 : cts₁ = cts0.take 0 ++ r0.map InferType :=
        twoDRowElems_cts_infer hs 0 r0 0 cts0 [] rm cts₁ (by omega) (by simpa using hrow)
      simp only at hres
      have h2 := twoDRowsBuild_cts_validate hs false rest 1 cts₁ ([] ++ [rm]) rows' cts'
        (Or.inr (by omega)) hres
      rw [h2, h1]
      simp

theorem oneDArrayToCSV_existing_inv (elems : List (Option Obj)) (hsl : List String)
    (ts : List ColumnType) (out : CSV)
    (hlen : ts.length = hsl.length) (hdt : ∀ ct ∈ ts, dtOK ct)
    (hres : oneDArrayToCSV elems (some hsl) (some ts) = some (.ok out)) : csvInv out := by
  unfold oneDArrayToCSV at hres
  simp only at hres
  split at hres
  · simp at hres
  · split at hres
    · simp at hres
    · simp at hres
    · simp at hres
      exact ⟨by simp [← hres, hlen], by simp [← hres]; exact hdt⟩

theorem oneDArrayToCSV_generated_inv (elems : List (Option Obj)) (out : CSV)
    (hres : oneDArrayToCSV elems none none = some (.ok out)) : csvInv out := by
  unfold oneDArrayToCSV at hres
  simp only at hres
  split at hres
  · simp at hres
  · simp at hres
  · simp at hres
    refine ⟨by simp [← hres, genHeaders_length], ?_⟩
    intro ct hct
    simp [← hres] at hct
    obtain ⟨o, -, ho⟩ := hct
    exact ho ▸ InferType_dtOK o

theorem twoDArrayToCSV_existing_inv (elems : List (Option Obj)) (hsl : List String)
    (ts : List ColumnType) (out : CSV)
    (hlen : ts.length = hsl.length) (hdt : ∀ ct ∈ ts, dtOK ct)
    (hres : twoDArrayToCSV elems (some hsl) (some ts) = some (.ok out)) : csvInv out := by
  unfold twoDArrayToCSV at hres
  cases hh : elems.head? with
  | none => rw [hh] at hres; simp at hres
  | some e0 =>
    rw [hh] at hres
    match e0 with
    | some (.array firstRow) =>
      simp only at hres
      split at hres
      · simp at hres
      · cases hbuild : twoDRowsBuild hsl true 0 elems ((some ts).getD []) [] with
        | none => rw [hbuild] at hres; simp at hres
        | some ex =>
          rw [hbuild] at hres
          cases ex with
          | error m => simp at hres
          | ok p =>
            obtain ⟨rows, cts⟩ := p
            have hcts : cts = (some ts).getD [] :=
              twoDRowsBuild_cts_validate hsl true elems 0 ((some ts).getD []) [] rows cts
                (Or.inl rfl) hbuild
            simp only [Option.getD_some] at hcts
            simp at hres
            subst hcts
            exact ⟨by simp [← hres, hlen], by simp [← hres]; exact hdt⟩
    | none => simp at hres
    | some (.null) => simp at hres
    | some (.integer _) => simp at hres
    | some (.string _) => simp at hres
    | some (.boolean _) => simp at hres
    | some (.returnValue _) => simp at hres
    | some (.error _) => simp at hres
    | some (.csv _) => simp at hres
    | some (.builtin _) => simp at hres

theorem twoDArrayToCSV_generated_inv (elems : List (Option Obj)) (out : CSV)
    (hres : twoDArrayToCSV elems none none = some (.ok out)) : csvInv out := by
  unfold twoDArrayToCSV at hres
  cases hh : elems.head? with
  | none => rw [hh] at hres; simp at hres
  | some e0 =>
    rw [hh] at hres
    match e0 with
    | some (.array firstRow) =>
      simp only at hres
      obtain ⟨rest, rfl⟩ : ∃ rest, elems = some (.array firstRow) :: rest := by
        cases elems with
        | nil => simp at hh
        | cons a t => simp at hh; exact ⟨t, by rw [hh]⟩
      cases hbuild : twoDRowsBuild (genHeaders firstRow.length) false 0
          (some (.array firstRow) :: rest) (List.replicate firstRow.length ⟨"", ""⟩) [] with
      | none => rw [hbuild] at hres; simp at hres
      | some ex =>
        rw [hbuild] at hres
        cases ex with
        | error m => simp at hres
        | ok p =>
          obtain ⟨rows, cts⟩ := p
          have hcts : cts = firstRow.map InferType :=
            twoDRowsBuild_cts_generated (genHeaders firstRow.length) firstRow rest
              (List.replicate firstRow.length ⟨"", ""⟩) rows cts (by simp) hbuild
          simp at hres
          subst hcts
          refine ⟨by simp [← hres, genHeaders_length], ?_⟩
          intro ct hct
          simp [← hres] at hct
          obtain ⟨o, -, ho⟩ := hct
          exact ho ▸ InferType_dtOK o
    | none => simp at hres
    | some (.null) => simp at hres
    | some (.integer _) => simp at hres
    | some (.string _) => simp at hres
    | some (.boolean _) => simp at hres
    | some (.returnValue _) => simp at hres
    | some (.error _) => simp at hres
    | some (.csv _) => simp at hres
    | some (.builtin _) => simp at hres

theorem ArrayToCSV_inv (elems : List (Option Obj)) (env : Env) (out : CSV)
    (henv : envCsvInv env) (hres : ArrayToCSV elems env = some (.ok out)) : csvInv out := by
  unfold ArrayToCSV at hres
  cases hget : env.get "csv" with
  | none =>
    rw [hget] at hres
    simp only at hres
    split at hres
    · simp at hres
      exact ⟨by simp [← hres], by simp [← hres]⟩
    · split at hres
      · split at hres
        · exact twoDArrayToCSV_generated_inv _ _ hres
        · simp at hres
      · exact oneDArrayToCSV_generated_inv _ _ hres
  | some v =>
    rw [hget] at hres
    match v with
    | some (.csv c) =>
      have hc := henv c hget
      simp only at hres
      split at hres
      · simp at hres
        exact ⟨by simp [← hres, hc.1], by simp [← hres]; exact hc.2⟩
      · split at hres
        · split at hres
          · exact twoDArrayToCSV_existing_inv _ _ _ _ hc.1 hc.2 hres
          · simp at hres
        · exact oneDArrayToCSV_existing_inv _ _ _ _ hc.1 hc.2 hres
    | none => simp at hres
    | some (.null) => simp at hres
    | some (.integer _) => simp at hres
    | some (.string _) => simp at hres
    | some (.boolean _) => simp at hres
    | some (.returnValue _) => simp at hres
    | some (.error _) => simp at hres
    | some (.array _) => simp at hres
    | some (.builtin _) => simp at hres

theorem ToCSV_inv (obj : Option Obj) (env : Env) (out : CSV)
    (henv : envCsvInv env) (hargcsv : ∀ c, obj = some (.csv c) → csvInv c)
    (hres : ToCSV obj env = some (.ok out)) : csvInv out := by
  match obj with
  | none => simp [ToCSV] at hres
  | some (.integer i) => exact intToCSV_inv i env out henv (by simpa [ToCSV] using hres)
  | some (.string s) => exact stringToCSV_inv s env out henv (by simpa [ToCSV] using hres)
  | some (.boolean b) => exact boolToCSV_inv b env out henv (by simpa [ToCSV] using hres)
  | some (.null) => simp [ToCSV] at hres
  | some (.returnValue _) => simp [ToCSV] at hres
  | some (.error _) => simp [ToCSV] at hres
  | some (.builtin _) => simp [ToCSV] at hres
  | some (.csv c) =>
    simp [ToCSV] at hres
    exact hres ▸ hargcsv c rfl
  | some (.array elems) => exact ArrayToCSV_inv elems env out henv (by simpa [ToCSV] using hres)

theorem removeDuplicatesFrom2dArray_inv (elems : List (Option Obj)) (env : Env) (out : CSV)
    (henv : envCsvInv env)
    (hres : removeDuplicatesFrom2dArray elems env = some (some out)) : csvInv out := by
  unfold removeDuplicatesFrom2dArray at hres
  match elems with
  | [] =>
    simp at hres
    exact ⟨by simp [← hres], by simp [← hres]⟩
  | firstElem :: rest =>
    match firstElem with
    | some (.array firstRow) =>
      simp only at hres
      cases hget : env.get "csv" with
      | none =>
        rw [hget] at hres
        simp only at hres
        split at hres
        · simp at hres
        · simp at hres
        · simp at hres
          refine ⟨by simp [← hres, genHeaders_length], ?_⟩
          intro ct hct
          simp [← hres] at hct
          obtain ⟨o, -, ho⟩ := hct
          exact ho ▸ InferType_dtOK o
      | some v =>
        rw [hget] at hres
        match v with
        | some (.csv c) =>
          have hc := henv c hget
          simp only at hres
          by_cases hlen : c.Headers.length ≠ firstRow.length
          · rw [if_pos hlen] at hres
            simp at hres
          · rw [if_neg hlen] at hres
            simp only at hres
            split at hres
            · simp at hres
            · simp at hres
            · simp at hres
              exact ⟨by simp [← hres, hc.1], by simp [← hres]; exact hc.2⟩
        | none => simp at hres
        | some (.null) => simp at hres
        | some (.integer _) => simp at hres
        | some (.string _) => simp at hres
        | some (.boolean _) => simp at hres
        | some (.returnValue _) => simp at hres
        | some (.error _) => simp at hres
        | some (.array _) => simp at hres
        | some (.builtin _) => simp at hres
    | none => simp at hres
    | some (.null) => simp at hres
    | some (.integer _) => simp at hres
    | some (.string _) => simp at hres
    | some (.boolean _) => simp at hres
    | some (.returnValue _) => simp at hres
    | some (.error _) => simp at hres
    | some (.csv _) => simp at hres
    | some (.builtin _) => simp at hres

theorem getD_mem_of_ne {α : Type} : ∀ (l : List α) (i : Nat) (d : α),
    l.getD i d ≠ d → l.getD i d ∈ l
  | [], i, d, h => absurd (by cases i <;> rfl) h
  | a :: _, 0, _, _ => by simp
  | a :: t, i + 1, d, h => by
    rw [List.getD_cons_succ] at h ⊢
    exact List.mem_cons_of_mem a (getD_mem_of_ne t i d h)

/-- `pop` preserves the invariant: the CSV it returns keeps its
argument's headers and column types. -/
theorem popBuiltin_inv (env envE : Env) (args : List (Option Obj)) (out : CSV)
    (hargs : ∀ c, some (Obj.csv c) ∈ args → csvInv c)
    (hres : popBuiltin env args = some (some (.csv out), envE)) : csvInv out := by
  unfold popBuiltin at hres
  split at hres
  · simp at hres
  · cases h0 : args.getD 0 none with
    | none => rw [h0] at hres; simp at hres
    | some o =>
      rw [h0] at hres
      match o with
      | .csv c =>
        have hmem : some (Obj.csv c) ∈ args := by
          have h := getD_mem_of_ne args 0 none (by rw [h0]; simp)
          rwa [h0] at h
        have hc := hargs c hmem
        simp only at hres
        split at hres
        · simp at hres
        · simp at hres
          obtain ⟨h1, -⟩ := hres
          exact ⟨by simp [← h1, hc.1], by simp [← h1]; exact hc.2⟩
      | .array elems =>
        simp only at hres
        split at hres <;> simp at hres
      | .null => simp at hres
      | .integer _ => simp at hres
      | .string _ => simp at hres
      | .boolean _ => simp at hres
      | .returnValue _ => simp at hres
      | .error _ => simp at hres
      | .builtin _ => simp at hres

/-- `fill_empty` preserves the invariant: the modified table keeps the
argument's headers and column types. -/
theorem fillEmptyBuiltin_inv (env envE : Env) (args : List (Option Obj)) (out : CSV)
    (hargs : ∀ c, some (Obj.csv c) ∈ args → csvInv c)
    (hres : fillEmptyBuiltin env args = some (some (.csv out), envE)) : csvInv out := by
  unfold fillEmptyBuiltin at hres
  split at hres
  · simp at hres
  · cases h0 : args.getD 0 none with
    | none => rw [h0] at hres; simp at hres
    | some o =>
      rw [h0] at hres
      match o with
      | .csv c =>
        have hmem : some (Obj.csv c) ∈ args := by
          have h := getD_mem_of_ne args 0 none (by rw [h0]; simp)
          rwa [h0] at h
        have hc := hargs c hmem
        simp only at hres
        cases h2 : (args.getD 2 none).bind Obj.inspect with
        | none => rw [h2] at hres; simp at hres
        | some fv =>
          rw [h2] at hres
          cases h1 : (args.getD 1 none).bind Obj.inspect with
          | none => rw [h1] at hres; simp at hres
          | some fn =>
            rw [h1] at hres
            simp at hres
            obtain ⟨ho, -⟩ := hres
            exact ho ▸ fillEmptyCore_inv c fn fv hc
      | .null => simp at hres
      | .integer _ => simp at hres
      | .string _ => simp at hres
      | .boolean _ => simp at hres
      | .returnValue _ => simp at hres
      | .error _ => simp at hres
      | .array _ => simp at hres
      | .builtin _ => simp at hres

/-- `unique` preserves the invariant on both its CSV and 2-D-array paths. -/
theorem uniqueBuiltin_inv (env envE : Env) (args : List (Option Obj)) (out : CSV)
    (henv : envCsvInv env)
    (hargs : ∀ c, some (Obj.csv c) ∈ args → csvInv c)
    (hres : uniqueBuiltin env args = some (some (.csv out), envE)) : csvInv out := by
  unfold uniqueBuiltin at hres
  split at hres
  · simp at hres
  · cases h0 : args.getD 0 none with
    | none => rw [h0] at hres; simp at hres
    | some o =>
      rw [h0] at hres
      match o with
      | .csv c =>
        have hmem : some (Obj.csv c) ∈ args := by
          have h := getD_mem_of_ne args 0 none (by rw [h0]; simp)
          rwa [h0] at h
        have hc := hargs c hmem
        simp at hres
        obtain ⟨ho, -⟩ := hres
        exact ho ▸ removeDuplicates_inv c hc
      | .array elems =>
        simp only at hres
        cases hdd : removeDuplicatesFrom2dArray elems env with
        | none => rw [hdd] at hres; simp at hres
        | some oo =>
          rw [hdd] at hres
          cases oo with
          | none => simp at hres
          | some c2 =>
            simp at hres
            obtain ⟨ho, -⟩ := hres
            exact ho ▸ removeDuplicatesFrom2dArray_inv elems env c2 henv hdd
      | .null => simp at hres
      | .integer _ => simp at hres
      | .string _ => simp at hres
      | .boolean _ => simp at hres
      | .returnValue _ => simp at hres
      | .error _ => simp at hres
      | .builtin _ => simp at hres

/-- `push` preserves the invariant: every CSV it returns comes out of
`mergeCSVs`, whose target satisfies the invariant. -/
theorem pushBuiltin_inv (env envE : Env) (args : List (Option Obj)) (out : CSV)
    (henv : envCsvInv env)
    (hargs : ∀ c, some (Obj.csv c) ∈ args → csvInv c)
    (hres : pushBuiltin env args = some (some (.csv out), envE)) : csvInv out := by
  unfold pushBuiltin at hres
  split at hres
  · simp at hres
  · cases h0 : args.getD 0 none with
    | none => rw [h0] at hres; simp at hres
    | some o0 =>
      rw [h0] at hres
      simp only at hres
      split at hres
      · rename_i c
        have hmem : some (Obj.csv c) ∈ args := by
          have h := getD_mem_of_ne args 0 none (by rw [h0]; simp)
          rwa [h0] at h
        have hc := hargs c hmem
        cases hT : ToCSV (args.getD 1 none) env with
        | none => rw [hT] at hres; simp at hres
        | some e =>
          rw [hT] at hres
          cases e with
          | error m => simp at hres
          | ok toAdd =>
            simp only at hres
            cases hm : mergeCSVs c toAdd with
            | none => rw [hm] at hres; simp at hres
            | some res =>
              rw [hm] at hres
              simp at hres
              obtain ⟨ho, -⟩ := hres
              exact mergeCSVs_inv c toAdd out hc (by rw [hm, ho])
      · cases h1 : args.getD 1 none with
        | none => rw [h1] at hres; simp at hres
        | some o1 =>
          rw [h1] at hres
          simp only at hres
          split at hres
          · rename_i c1
            have hmem1 : some (Obj.csv c1) ∈ args := by
              have h := getD_mem_of_ne args 1 none (by rw [h1]; simp)
              rwa [h1] at h
            have hc1 := hargs c1 hmem1
            split at hres
            · rename_i elems hne
              cases hA : ArrayToCSV elems env with
              | none => rw [hA] at hres; simp at hres
              | some e =>
                rw [hA] at hres
                cases e with
                | error m => simp at hres
                | ok csvFromArr =>
                  simp only at hres
                  cases hm : mergeCSVs csvFromArr c1 with
                  | none => rw [hm] at hres; simp at hres
                  | some res =>
                    rw [hm] at hres
                    simp at hres
                    obtain ⟨ho, -⟩ := hres
                    exact mergeCSVs_inv csvFromArr c1 out
                      (ArrayToCSV_inv elems env csvFromArr henv hA) (by rw [hm, ho])
            · simp at hres
          · split at hres
            · split at hres
              · simp at hres
              · split at hres
                · split at hres
                  · split at hres <;> simp at hres
                  · simp at hres
                · simp at hres
            · simp at hres

/-- C6 (amended): every CSV constructed by the interpreter's operations
satisfies `|ColumnTypes| = |Headers|` with each `DataType` one of
INTEGER / STRING / BOOLEAN — for `load` PROVIDED the file has at least one
data row (`InferColumnTypes` is a no-op on an empty `Rows`, leaving
`ColumnTypes` empty under non-empty `Headers`), and for `read`, `unique`,
`fill_empty`, `pop`, `push`, `merge` and the scalar/array-to-CSV coercion
provided their CSV inputs (arguments and the `csv` binding) satisfy it. -/
theorem C6_invariants :
    (∀ (headers : List String) (records : List (List String)), records ≠ [] →
      csvInv (evalLoadCore headers records))
    ∧ (∀ (fuel : Nat) (loc : Location) (env envE : Env) (c out : CSV),
        env.get "csv" = some (some (.csv c)) → csvInv c →
        evalReadStatement fuel loc env = some (some (.csv out), envE) → csvInv out)
    ∧ (∀ (env envE : Env) (args : List (Option Obj)) (out : CSV), envCsvInv env →
        (∀ c, some (Obj.csv c) ∈ args → csvInv c) →
        uniqueBuiltin env args = some (some (.csv out), envE) → csvInv out)
    ∧ (∀ (env envE : Env) (args : List (Option Obj)) (out : CSV),
        (∀ c, some (Obj.csv c) ∈ args → csvInv c) →
        fillEmptyBuiltin env args = some (some (.csv out), envE) → csvInv out)
    ∧ (∀ (env envE : Env) (args : List (Option Obj)) (out : CSV),
        (∀ c, some (Obj.csv c) ∈ args → csvInv c) →
        popBuiltin env args = some (some (.csv out), envE) → csvInv out)
    ∧ (∀ (env envE : Env) (args : List (Option Obj)) (out : CSV), envCsvInv env →
        (∀ c, some (Obj.csv c) ∈ args → csvInv c) →
        pushBuiltin env args = some (some (.csv out), envE) → csvInv out)
    ∧ (∀ (t s out : CSV), csvInv t → mergeCSVs t s = some (.csv out) → csvInv out)
    ∧ (∀ (obj : Option Obj) (env : Env) (out : CSV), envCsvInv env →
        (∀ c, obj = some (.csv c) → csvInv c) →
        ToCSV obj env = some (.ok out) → csvInv out) :=
  ⟨fun headers records h => evalLoadCore_inv headers records h,
   fun fuel loc env envE c out hc hi hr => evalReadStatement_inv fuel loc env envE c out hc hi hr,
   fun env envE args out he ha hr => uniqueBuiltin_inv env envE args out he ha hr,
   fun env envE args out ha hr => fillEmptyBuiltin_inv env envE args out ha hr,
   fun env envE args out ha hr => popBuiltin_inv env envE args out ha hr,
   fun env envE args out he ha hr => pushBuiltin_inv env envE args out he ha hr,
   fun t s out hi hr => mergeCSVs_inv t s out hi hr,
   fun obj env out he ha hr => ToCSV_inv obj env out he ha hr⟩

/-- C6 (counterexample): a table loaded from a file with only a header row
and no data rows violates the invariant — `InferColumnTypes` returns
without doing anything when `Rows` is empty, so `ColumnTypes` stays `[]`
while `Headers` has two entries. -/
theorem C6_counterexample : ¬ csvInv (evalLoadCore ["name", "age"] []) := by decide

/-- C6 witness: a one-row load satisfies the invariant, and `unique` on a
well-formed CSV argument produces an invariant-satisfying table. -/
theorem C6_witness :
    csvInv (evalLoadCore ["age"] [["30"]]) ∧ csvInv (removeDuplicates csvT) :=
  ⟨C6_invariants.1 ["age"] [["30"]] (by decide),
   C6_invariants.2.2.1 env0 env0 [some (.csv csvT)] (removeDuplicates csvT)
     (fun c hc => by simp [env0, Env.get] at hc)
     (fun c hc => by
       simp at hc
       exact hc ▸ (by decide : csvInv csvT))
     rfl⟩

/-- Order-preserving first-occurrence filter keyed by `key`, given the
keys already seen: the specification the dedup loops are compared to. -/
def firstOccurrencesBy {α : Type} (key : α → String) : List String → List α → List α
  | _, [] => []
  | seen, a :: rest =>
    if seen.contains (key a) then firstOccurrencesBy key seen rest
    else a :: firstOccurrencesBy key (key a :: seen) rest

/-- The CSV dedup loop keeps exactly the first occurrence of each row key,
in order. -/
theorem removeDuplicatesLoop_spec (headers : List String) :
    ∀ (rows : List Row) (seen : List String) (acc : List Row),
    removeDuplicatesLoop headers seen acc rows =
      acc ++ firstOccurrencesBy (rowJoinKey headers) seen rows := by
  intro rows
  induction rows with
  | nil => intro seen acc; simp [removeDuplicatesLoop, firstOccurrencesBy]
  | cons row rest ih =>
    intro seen acc
    simp only [removeDuplicatesLoop, firstOccurrencesBy]
    by_cases h : seen.contains (rowJoinKey headers row)
    · rw [if_pos h, if_pos h, ih]
    · rw [if_neg h, if_neg h, ih]
      simp

/-- `removeDuplicates` keeps the first occurrence of each row identity
(the `|`-join of the cells in header order), preserving headers and
column types. -/
theorem removeDuplicates_spec (c : CSV) :
    removeDuplicates c =
      ⟨c.Headers, c.ColumnTypes, firstOccurrencesBy (rowJoinKey c.Headers) [] c.Rows⟩ := by
  unfold removeDuplicates
  rw [removeDuplicatesLoop_spec]
  simp

/-- The 2-D dedup loop, on uniform-length array rows that are no wider
than the key buffer and whose cells all inspect successfully, keeps the
first occurrence of each padded key. -/
theorem dedup2dLoop_spec (headers : List String) (padTo rowLength : Nat) :
    ∀ (rows : List (List (Option Obj))) (seen : List String) (acc : List Row),
    (∀ r ∈ rows, r.length = rowLength) → rowLength ≤ padTo →
    (∀ r ∈ rows, (inspectElems r).isSome) →
    (∀ r ∈ rows, (dedup2dRowMap headers 0 r []).isSome) →
    dedup2dLoop headers padTo rowLength seen acc (rows.map (fun r => some (.array r))) =
      some (some (acc ++
        (firstOccurrencesBy (fun r => (dedup2dKey padTo r).getD "") seen rows).map
          (fun r => (dedup2dRowMap headers 0 r []).getD []))) := by
  intro rows
  induction rows with
  | nil => intro seen acc _ _ _ _; simp [dedup2dLoop, firstOccurrencesBy]
  | cons r rest ih =>
    intro seen acc hlen hpad hins hmap
    have hrlen : r.length = rowLength := hlen r (by simp)
    obtain ⟨strs, hstrs⟩ := Option.isSome_iff_exists.mp (hins r (by simp))
    obtain ⟨rm, hrm⟩ := Option.isSome_iff_exists.mp (hmap r (by simp))
    have hkey : dedup2dKey padTo r =
        some (String.intercalate "|" (strs ++ List.replicate (padTo - r.length) "")) := by
      unfold dedup2dKey
      rw [if_neg (by omega), hstrs]
      rfl
    simp only [List.map_cons, dedup2dLoop, firstOccurrencesBy]
    rw [if_neg (by simp [hrlen])]
    simp only [hkey, Option.getD_some]
    by_cases hc : seen.contains (String.intercalate "|" (strs ++ List.replicate (padTo - r.length) ""))
    · rw [if_pos hc, if_pos hc,
        ih seen acc (fun x hx => hlen x (by simp [hx])) hpad
          (fun x hx => hins x (by simp [hx])) (fun x hx => hmap x (by simp [hx]))]
    · rw [if_neg hc, if_neg hc]
      simp only [hrm]
      rw [ih _ _ (fun x hx => hlen x (by simp [hx])) hpad
          (fun x hx => hins x (by simp [hx])) (fun x hx => hmap x (by simp [hx]))]
      simp [hrm]

/-- `removeDuplicatesFrom2dArray` on a well-formed 2-D array with no `csv`
binding: generated headers, first-row inferred column types, and
first-occurrence rows keyed by the padded `|`-join. -/
theorem removeDuplicatesFrom2dArray_spec (env : Env) (r0 : List (Option Obj))
    (rest : List (List (Option Obj)))
    (hcsv : env.get "csv" = none)
    (hlen : ∀ r ∈ r0 :: rest, r.length = r0.length)
    (hpad : r0.length ≤ rest.length + 1)
    (hins : ∀ r ∈ r0 :: rest, (inspectElems r).isSome)
    (hmap : ∀ r ∈ r0 :: rest, (dedup2dRowMap (genHeaders r0.length) 0 r []).isSome) :
    removeDuplicatesFrom2dArray ((r0 :: rest).map (fun r => some (.array r))) env =
      some (some ⟨genHeaders r0.length, r0.map InferType,
        (firstOccurrencesBy (fun r => (dedup2dKey (rest.length + 1) r).getD "")
          [] (r0 :: rest)).map
          (fun r => (dedup2dRowMap (genHeaders r0.length) 0 r []).getD [])⟩) := by
  have hloop := dedup2dLoop_spec (genHeaders r0.length) (rest.length + 1) r0.length
    (r0 :: rest) [] [] hlen hpad hins hmap
  rw [List.map_cons] at hloop
  unfold removeDuplicatesFrom2dArray
  simp only [List.map_cons, hcsv, List.length_cons, List.length_map]
  rw [hloop]
  simp

/-- C7 (amended): `unique` takes one argument; on a CSV it returns a CSV
with the same Headers and ColumnTypes whose Rows are the first occurrence
of each row identity (the `|`-join of cells in header order) in original
order; on a well-formed 2-D array it likewise returns a CSV of
first-occurrence rows — but the result is NOT always a CSV: a non-CSV,
non-array argument yields the Go nil object, and a 2-D array wider than
it is tall panics (the key buffer is sized by the row COUNT). -/
theorem C7_unique :
    (∀ (env : Env) (args : List (Option Obj)), args.length ≠ 1 →
      uniqueBuiltin env args = some (some (.error
        ("wrong number of arguments: got=" ++ toString args.length ++ ", want=1")), env))
    ∧ (∀ (env : Env) (c : CSV), uniqueBuiltin env [some (.csv c)] =
        some (some (.csv ⟨c.Headers, c.ColumnTypes,
          firstOccurrencesBy (rowJoinKey c.Headers) [] c.Rows⟩), env))
    ∧ (∀ (env : Env) (r0 : List (Option Obj)) (rest : List (List (Option Obj))),
        env.get "csv" = none →
        (∀ r ∈ r0 :: rest, r.length = r0.length) →
        r0.length ≤ rest.length + 1 →
        (∀ r ∈ r0 :: rest, (inspectElems r).isSome) →
        (∀ r ∈ r0 :: rest, (dedup2dRowMap (genHeaders r0.length) 0 r []).isSome) →
        uniqueBuiltin env [some (.array ((r0 :: rest).map (fun r => some (.array r))))] =
          some (some (.csv ⟨genHeaders r0.length, r0.map InferType,
            (firstOccurrencesBy (fun r => (dedup2dKey (rest.length + 1) r).getD "")
              [] (r0 :: rest)).map
              (fun r => (dedup2dRowMap (genHeaders r0.length) 0 r []).getD [])⟩), env))
    ∧ (∀ (env : Env) (o : Obj), (∀ c, o ≠ .csv c) → (∀ es, o ≠ .array es) →
        uniqueBuiltin env [some o] = some (none, env))
    ∧ (∀ (env : Env) (r0 : List (Option Obj)) (rest : List (Option Obj)),
        env.get "csv" = none → rest.length + 1 < r0.length →
        uniqueBuiltin env [some (.array (some (.array r0) :: rest))] = none) := by
  refine ⟨?_, ?_, ?_, ?_, ?_⟩
  · intro env args h
    unfold uniqueBuiltin
    rw [if_pos h]
  · intro env c
    have h : uniqueBuiltin env [some (.csv c)] =
        some (some (.csv (removeDuplicates c)), env) := rfl
    rw [h, removeDuplicates_spec]
  · intro env r0 rest hcsv hlen hpad hins hmap
    have h : uniqueBuiltin env [some (.array ((r0 :: rest).map (fun r => some (.array r))))] =
        match removeDuplicatesFrom2dArray ((r0 :: rest).map (fun r => some (.array r))) env with
        | none => none
        | some (some c) => some (some (.csv c), env)
        | some none => some (none, env) := rfl
    rw [h, removeDuplicatesFrom2dArray_spec env r0 rest hcsv hlen hpad hins hmap]
  · intro env o hc ha
    match o with
    | .csv c => exact absurd rfl (hc c)
    | .array es => exact absurd rfl (ha es)
    | .null => rfl
    | .integer _ => rfl
    | .string _ => rfl
    | .boolean _ => rfl
    | .returnValue _ => rfl
    | .error _ => rfl
    | .builtin _ => rfl
  · intro env r0 rest hcsv hlt
    have h : uniqueBuiltin env [some (.array (some (.array r0) :: rest))] =
        match removeDuplicatesFrom2dArray (some (.array r0) :: rest) env with
        | none => none
        | some (some c) => some (some (.csv c), env)
        | some none => some (none, env) := rfl
    rw [h]
    have h2 : removeDuplicatesFrom2dArray (some (.array r0) :: rest) env = none := by
      unfold removeDuplicatesFrom2dArray
      simp only [hcsv]
      have h3 : dedup2dLoop (genHeaders r0.length) (some (.array r0) :: rest).length r0.length
          [] [] (some (.array r0) :: rest) = none := by
        simp only [dedup2dLoop]
        rw [if_neg (by simp)]
        have h4 : dedup2dKey (some (.array r0) :: rest).length r0 = none := by
          unfold dedup2dKey
          rw [if_pos (by simp; omega)]
        rw [h4]
      rw [h3]
    rw [h2]

/-- C7 (counterexample): `unique` of an Integer argument returns the Go
nil object — no CSV at all — and `unique` of a 2-D array wider than it is
tall panics; the result is not always a CSV value. -/
theorem C7_counterexample :
    uniqueBuiltin env0 [some (.integer 5)] = some (none, env0)
    ∧ uniqueBuiltin env0 [some (.array [some (.array [some (.integer 1), some (.integer 2)])])]
        = none :=
  ⟨rfl, rfl⟩

/-- C7 witness: the arity error, the CSV dedup path on a concrete table,
the 2-D dedup path on a concrete array, and the Go-nil result on a
Boolean argument. -/
theorem C7_witness :
    uniqueBuiltin env0 [] =
      some (some (.error ("wrong number of arguments: got=" ++
        toString (List.length ([] : List (Option Obj))) ++ ", want=1")), env0)
    ∧ uniqueBuiltin env0 [some (.csv csvT)] =
      some (some (.csv ⟨csvT.Headers, csvT.ColumnTypes,
        firstOccurrencesBy (rowJoinKey csvT.Headers) [] csvT.Rows⟩), env0)
    ∧ uniqueBuiltin env0 [some (.array (([some (.integer 7)] ::
        [[some (.integer 7)]]).map (fun r => some (.array r))))] =
      some (some (.csv ⟨genHeaders (List.length [some (Obj.integer 7)]),
        [some (Obj.integer 7)].map InferType,
        (firstOccurrencesBy
          (fun r => (dedup2dKey (List.length [[some (Obj.integer 7)]] + 1) r).getD "")
          [] ([some (.integer 7)] :: [[some (.integer 7)]])).map
          (fun r => (dedup2dRowMap (genHeaders (List.length [some (Obj.integer 7)]))
            0 r []).getD [])⟩), env0)
    ∧ uniqueBuiltin env0 [some (.boolean true)] = some (none, env0) :=
  ⟨C7_unique.1 env0 [] (by decide),
   C7_unique.2.1 env0 csvT,
   C7_unique.2.2.1 env0 [some (.integer 7)] [[some (.integer 7)]] rfl
     (by intro r hr; simp at hr; rcases hr with rfl | rfl <;> rfl)
     (by decide)
     (by intro r hr; simp at hr; rcases hr with rfl | rfl <;> rfl)
     (by intro r hr; simp at hr; rcases hr with rfl | rfl <;> rfl),
   C7_unique.2.2.2.1 env0 (.boolean true) (fun c h => Obj.noConfusion h)
     (fun es h => Obj.noConfusion h)⟩

/-- `readChar` keeps the line at least 1 and leaves the column at least 1
(it either increments it or resets it to 1). -/
theorem readChar_pos (l : Lexer) (hl : 1 ≤ l.Line) :
    1 ≤ l.readChar.Line ∧ 1 ≤ l.readChar.Column := by
  simp only [Lexer.readChar]
  split <;> split <;> refine ⟨?_, ?_⟩
  · show 1 ≤ l.Line + 1
    omega
  · exact le_refl 1
  · exact hl
  · show 1 ≤ l.Column + 1
    omega
  · show 1 ≤ l.Line + 1
    omega
  · exact le_refl 1
  · exact hl
  · show 1 ≤ l.Column + 1
    omega

theorem skipWhitespaceF_pos : ∀ (fuel : Nat) (l : Lexer), 1 ≤ l.Line → 1 ≤ l.Column →
    1 ≤ (skipWhitespaceF fuel l).Line ∧ 1 ≤ (skipWhitespaceF fuel l).Column
  | 0, l, hl, hc => ⟨hl, hc⟩
  | fuel + 1, l, hl, hc => by
    unfold skipWhitespaceF
    split
    · have h := readChar_pos l hl
      exact skipWhitespaceF_pos fuel l.readChar h.1 h.2
    · exact ⟨hl, hc⟩

theorem readIdentifierF_pos : ∀ (fuel : Nat) (l : Lexer), 1 ≤ l.Line → 1 ≤ l.Column →
    1 ≤ (readIdentifierF fuel l).Line ∧ 1 ≤ (readIdentifierF fuel l).Column
  | 0, l, hl, hc => ⟨hl, hc⟩
  | fuel + 1, l, hl, hc => by
    unfold readIdentifierF
    split
    · have h := readChar_pos l hl
      exact readIdentifierF_pos fuel l.readChar h.1 h.2
    · exact ⟨hl, hc⟩

theorem readNumberF_pos : ∀ (fuel : Nat) (l : Lexer), 1 ≤ l.Line → 1 ≤ l.Column →
    1 ≤ (readNumberF fuel l).Line ∧ 1 ≤ (readNumberF fuel l).Column
  | 0, l, hl, hc => ⟨hl, hc⟩
  | fuel + 1, l, hl, hc => by
    unfold readNumberF
    split
    · have h := readChar_pos l hl
      exact readNumberF_pos fuel l.readChar h.1 h.2
    · exact ⟨hl, hc⟩

theorem readStringF_pos : ∀ (fuel : Nat) (l : Lexer), 1 ≤ l.Line → 1 ≤ l.Column →
    1 ≤ (readStringF fuel l).Line ∧ 1 ≤ (readStringF fuel l).Column
  | 0, l, hl, hc => ⟨hl, hc⟩
  | fuel + 1, l, hl, _ => by
    have h := readChar_pos l hl
    simp only [readStringF]
    split
    · exact h
    · exact readStringF_pos fuel l.readChar h.1 h.2

theorem readCommentF_pos : ∀ (fuel : Nat) (l : Lexer), 1 ≤ l.Line → 1 ≤ l.Column →
    1 ≤ (readCommentF fuel l).Line ∧ 1 ≤ (readCommentF fuel l).Column
  | 0, l, hl, hc => ⟨hl, hc⟩
  | fuel + 1, l, hl, _ => by
    have h := readChar_pos l hl
    simp only [readCommentF]
    split
    · exact h
    · exact readCommentF_pos fuel l.readChar h.1 h.2

set_option maxHeartbeats 2000000 in
/-- Every branch of `nextToken` returns a lexer whose line and column are
again at least 1. -/
theorem nextToken_pos (l₀ : Lexer) (hl : 1 ≤ l₀.Line) (hc : 1 ≤ l₀.Column) :
    1 ≤ l₀.nextToken.2.Line ∧ 1 ≤ l₀.nextToken.2.Column := by
  have hs : 1 ≤ (Lexer.skipWhitespace l₀).Line ∧ 1 ≤ (Lexer.skipWhitespace l₀).Column := by
    unfold Lexer.skipWhitespace
    exact skipWhitespaceF_pos _ _ hl hc
  obtain ⟨hsl, hsc⟩ := hs
  simp only [Lexer.nextToken, Lexer.readComment, Lexer.readStringLit,
    Lexer.readIdentifier, Lexer.readNumber]
  generalize hgen : Lexer.skipWhitespace l₀ = l at hsl hsc ⊢
  by_cases h1 : l.ch = '#'
  · rw [if_pos h1]
    exact readChar_pos _ (readCommentF_pos (l.input.length + 1) l hsl hsc).1
  rw [if_neg h1]
  by_cases h2 : l.ch = '='
  · rw [if_pos h2]
    by_cases h2b : l.peekChar = '='
    · rw [if_pos h2b]
      exact readChar_pos _ (readChar_pos l hsl).1
    · rw [if_neg h2b]
      exact readChar_pos l hsl
  rw [if_neg h2]
  by_cases h3 : l.ch = '+'
  · rw [if_pos h3]
    exact readChar_pos l hsl
  rw [if_neg h3]
  by_cases h4 : l.ch = '-'
  · rw [if_pos h4]
    exact readChar_pos l hsl
  rw [if_neg h4]
  by_cases h5 : l.ch = '!'
  · rw [if_pos h5]
    by_cases h5b : l.peekChar = '='
    · rw [if_pos h5b]
      exact readChar_pos _ (readChar_pos l hsl).1
    · rw [if_neg h5b]
      exact readChar_pos l hsl
  rw [if_neg h5]
  by_cases h6 : l.ch = '"'
  · rw [if_pos h6]
    exact readChar_pos _ (readStringF_pos (l.input.length + 1) l hsl hsc).1
  rw [if_neg h6]
  by_cases h7 : l.ch = '/'
  · rw [if_pos h7]
    exact readChar_pos l hsl
  rw [if_neg h7]
  by_cases h8 : l.ch = '*'
  · rw [if_pos h8]
    exact readChar_pos l hsl
  rw [if_neg h8]
  by_cases h9 : l.ch = '<'
  · rw [if_pos h9]
    exact readChar_pos l hsl
  rw [if_neg h9]
  by_cases h10 : l.ch = '>'
  · rw [if_pos h10]
    exact readChar_pos l hsl
  rw [if_neg h10]
  by_cases h11 : l.ch = ';'
  · rw [if_pos h11]
    exact readChar_pos l hsl
  rw [if_neg h11]
  by_cases h12 : l.ch = ','
  · rw [if_pos h12]
    exact readChar_pos l hsl
  rw [if_neg h12]
  by_cases h13 : l.ch = '('
  · rw [if_pos h13]
    exact readChar_pos l hsl
  rw [if_neg h13]
  by_cases h14 : l.ch = ')'
  · rw [if_pos h14]
    exact readChar_pos l hsl
  rw [if_neg h14]
  by_cases h15 : l.ch = '\x7b'
  · rw [if_pos h15]
    exact readChar_pos l hsl
  rw [if_neg h15]
  by_cases h16 : l.ch = '\x7d'
  · rw [if_pos h16]
    exact readChar_pos l hsl
  rw [if_neg h16]
  by_cases h17 : l.ch = '['
  · rw [if_pos h17]
    exact readChar_pos l hsl
  rw [if_neg h17]
  by_cases h18 : l.ch = ']'
  · rw [if_pos h18]
    exact readChar_pos l hsl
  rw [if_neg h18]
  by_cases h19 : l.ch = '\n'
  · rw [if_pos h19]
    refine readChar_pos _ ?_
    show 1 ≤ l.Line + 1
    omega
  rw [if_neg h19]
  by_cases h20 : l.ch = charNul
  · rw [if_pos h20]
    exact readChar_pos l hsl
  rw [if_neg h20]
  by_cases h21 : isLetter l.ch = true
  · rw [if_pos h21]
    exact readIdentifierF_pos (l.input.length + 1) l hsl hsc
  rw [if_neg h21]
  by_cases h22 : isDigit l.ch = true
  · rw [if_pos h22]
    exact readNumberF_pos (l.input.length + 1) l hsl hsc
  rw [if_neg h22]
  exact readChar_pos l hsl

/-- C8 (amended): tokens carry only a kind and a literal — the `Token`
struct has no position fields — while the LEXER STATE maintains the
source position: `New` starts with line and column at least 1 and every
`NextToken` returns a lexer whose line and column are again non-zero. -/
theorem C8_lexer_position :
    (∀ s : String, 1 ≤ (Lexer.new s).Line ∧ 1 ≤ (Lexer.new s).Column)
    ∧ (∀ l : Lexer, 1 ≤ l.Line → 1 ≤ l.Column →
        1 ≤ l.nextToken.2.Line ∧ 1 ≤ l.nextToken.2.Column) :=
  ⟨fun s => readChar_pos ⟨s.data, 0, 0, charNul, 1, 1⟩ (by simp),
   fun l hl hc => nextToken_pos l hl hc⟩

/-- C8 (counterexample): the `Token` struct carries no position — the two
`5` tokens of `"5 5"` are EQUAL as tokens although they come from
different columns, which are visible only in the lexer state. -/
theorem C8_counterexample :
    (Lexer.new "5 5").nextToken.1 = (Lexer.new "5 5").nextToken.2.nextToken.1
    ∧ (Lexer.new "5 5").nextToken.2.Column ≠
        (Lexer.new "5 5").nextToken.2.nextToken.2.Column := by decide

/-- C8 witness: on the input `x`, the fresh lexer and the lexer after one
`NextToken` all have non-zero line and column. -/
theorem C8_witness :
    (1 ≤ (Lexer.new "x").Line ∧ 1 ≤ (Lexer.new "x").Column)
    ∧ (1 ≤ (Lexer.new "x").nextToken.2.Line ∧ 1 ≤ (Lexer.new "x").nextToken.2.Column) :=
  ⟨C8_lexer_position.1 "x",
   C8_lexer_position.2 (Lexer.new "x") (by decide) (by decide)⟩

end CsvLang
